import Mathlib

/- Shallow embedding of the multi-signal ticket-classification engine in
python_common/analysis.py and python_common/taxonomy.py of the
Freshservice-Ticket-Modules repository.

Modelling conventions:
- Python floats are modelled as rationals; Python round(x, 2) is modelled by
  rounding to a multiple of 1/100 with ties to even, which is how Python
  rounds.
- Strings are treated at ASCII fidelity (the code tokenizes and lowercases
  with the ASCII classes [A-Za-z0-9_]); Python dicts are modelled as
  association lists with insertion-order semantics (assignment to an
  existing key updates the value in place, a new key is appended).
- Compiled regular expressions are modelled abstractly as a pattern string
  together with a search predicate, and the two third-party numeric
  primitives (rapidfuzz partial_ratio, math.log / math.sqrt) are passed in
  as function parameters, so every theorem quantifies over them. -/

attribute [local semireducible] Rat.add Rat.sub Rat.mul Rat.inv

namespace Freshservice

/-- Characters matched by the Python token pattern [A-Za-z0-9_]
(TOKEN_PATTERN in analysis.py and taxonomy.py). -/
def isTokenChar (c : Char) : Bool :=
  c.isAlpha || c.isDigit || c == '_'

/-- Lowercase a string character by character (Python str.lower at ASCII
fidelity). -/
def pyLower (s : String) : String :=
  String.mk (s.toList.map Char.toLower)

/-- Collect maximal runs of token characters; helper for findallTokens. -/
def tokenRunsAux : List Char → List Char → List (List Char)
  | [], acc => if acc.isEmpty then [] else [acc.reverse]
  | c :: rest, acc =>
    if isTokenChar c then tokenRunsAux rest (c :: acc)
    else if acc.isEmpty then tokenRunsAux rest []
    else acc.reverse :: tokenRunsAux rest []

/-- Python TOKEN_PATTERN.findall: all maximal runs of [A-Za-z0-9_]. -/
def findallTokens (s : String) : List String :=
  (tokenRunsAux s.toList []).map String.mk

/-- TicketAnalyzer._raw_tokens: findall then lowercase each token. -/
def rawTokens (text : String) : List String :=
  (findallTokens text).map pyLower

/-- Python substring containment, needle in hay. -/
def strContains (hay needle : String) : Bool :=
  hay.toList.tails.any (fun suf => needle.toList.isPrefixOf suf)

/-- Python str.strip() whitespace class (ASCII part). -/
def isPyWhitespace (c : Char) : Bool :=
  c == ' ' || c == '\t' || c == '\n' || c == '\r' || c.val == 11 || c.val == 12

/-- Python str.strip(). -/
def pyStrip (s : String) : String :=
  String.mk (((s.toList.dropWhile isPyWhitespace).reverse.dropWhile isPyWhitespace).reverse)

/-- Python re.fullmatch(r"[A-Za-z0-9_]+", s) as a Boolean test. -/
def isFullmatchToken (s : String) : Bool :=
  !s.toList.isEmpty && s.toList.all isTokenChar

/-- TicketAnalyzer._matches_term: a single-token term must be in the token
set, any other non-empty term must occur as a substring of the lowercase
text; the first argument (the unnormalised term) is unused, as in the
source. -/
def matchesTerm (_term norm : String) (textLower : String) (tokenSet : List String) : Bool :=
  if norm = "" then false
  else if isFullmatchToken norm then tokenSet.contains norm
  else strContains textLower norm

/-- Round-half-to-even to an integer, as Python round(x). -/
def roundHalfEven (q : ℚ) : ℤ :=
  if q - (Rat.floor q : ℚ) < 1/2 then Rat.floor q
  else if 1/2 < q - (Rat.floor q : ℚ) then Rat.floor q + 1
  else if Rat.floor q % 2 = 0 then Rat.floor q else Rat.floor q + 1

/-- Python round(x, 2). -/
def round2 (q : ℚ) : ℚ :=
  (roundHalfEven (100 * q) : ℚ) / 100

/-- Python f-string formatting with :.0f. -/
def formatF0 (q : ℚ) : String :=
  toString (roundHalfEven q)

/-- Python f-string formatting with :.2f. -/
def formatF2 (q : ℚ) : String :=
  let n := roundHalfEven (100 * q)
  let sign := if n < 0 then "-" else ""
  let m := n.natAbs
  let fp := m % 100
  let fracStr := if fp < 10 then "0" ++ toString fp else toString fp
  sign ++ toString (m / 100) ++ "." ++ fracStr

/-- Python repr of a list of strings, as interpolated into rationales. -/
def pyListRepr (xs : List String) : String :=
  "[" ++ String.intercalate ", " (xs.map (fun s => "\x27" ++ s ++ "\x27")) ++ "]"

/-- Path segments joined by " > ", as in the rationale strings. -/
def joinPath (path : List String) : String :=
  String.intercalate " > " path

/-- TicketAnalyzer._confidence: depth-based base plus a capped per-extra-hit
bonus, capped at 0.95 and rounded to 2 decimals. -/
def confidence (keyword_hits depth : ℕ) : ℚ :=
  let base : ℚ := if 3 ≤ depth then 9/10 else if depth = 2 then 4/5 else 13/20
  let bonus : ℚ := min ((5/100) * ((keyword_hits - 1 : ℕ) : ℚ)) (9/100)
  round2 (min (base + bonus) (19/20))

/-- Compiled regular expression, modelled abstractly as the original pattern
string plus its search behaviour. -/
structure PyRegex where
  pattern : String
  search : String → Bool

/-- taxonomy.TaxonomyNode: label, full path, derived keywords with their
lowercase norms, compiled regexes, aliases and child nodes. -/
inductive TaxonomyNode where
  | mk (label : String) (path : List String) (keywords : List String)
      (keyword_norms : List String) (regexes : List PyRegex)
      (aliases : List String) (children : List TaxonomyNode)

def TaxonomyNode.label : TaxonomyNode → String
  | .mk l _ _ _ _ _ _ => l

def TaxonomyNode.path : TaxonomyNode → List String
  | .mk _ p _ _ _ _ _ => p

def TaxonomyNode.keywords : TaxonomyNode → List String
  | .mk _ _ k _ _ _ _ => k

def TaxonomyNode.keyword_norms : TaxonomyNode → List String
  | .mk _ _ _ n _ _ _ => n

def TaxonomyNode.regexes : TaxonomyNode → List PyRegex
  | .mk _ _ _ _ r _ _ => r

def TaxonomyNode.aliases : TaxonomyNode → List String
  | .mk _ _ _ _ _ a _ => a

def TaxonomyNode.children : TaxonomyNode → List TaxonomyNode
  | .mk _ _ _ _ _ _ c => c

mutual

/-- TaxonomyNode.iter_nodes: the node itself, then all descendants in
depth-first order. -/
def TaxonomyNode.iterNodes : TaxonomyNode → List TaxonomyNode
  | .mk l p k n r a c => .mk l p k n r a c :: TaxonomyNode.iterNodesList c

def TaxonomyNode.iterNodesList : List TaxonomyNode → List TaxonomyNode
  | [] => []
  | n :: rest => n.iterNodes ++ TaxonomyNode.iterNodesList rest

end

/-- taxonomy.AliasRule; the Python field alias is called aliasName here
because alias is a reserved command name in Lean. -/
structure AliasRule where
  aliasName : String
  target_path : List String
  legacy : Bool := false
  note : Option String := none
  regex : Option PyRegex := none

/-- taxonomy.TaxonomyModel: node tree keyed by path, priority map and flat
alias-rule list.  Dicts become association lists in insertion order. -/
structure TaxonomyModel where
  nodes_by_path : List (List String × TaxonomyNode)
  priority_map : List (List String × ℕ)
  alias_rules : List AliasRule
  max_depth : ℕ := 3

/-- Lookup in an association list (Python dict.get). -/
def alistLookup {α β : Type} [DecidableEq α] (m : List (α × β)) (k : α) : Option β :=
  match m with
  | [] => none
  | (k2, v) :: rest => if k2 = k then some v else alistLookup rest k

/-- Python dict assignment d[k] = v: update in place if the key exists,
else append, preserving insertion order. -/
def alistInsert {α β : Type} [DecidableEq α] (m : List (α × β)) (k : α) (v : β) :
    List (α × β) :=
  if m.any (fun e => e.1 = k) then m.map (fun e => if e.1 = k then (e.1, v) else e)
  else m ++ [(k, v)]

/-- In-place mutation of the value stored at a key (Python attribute
assignment on a dict entry). -/
def alistModify {α β : Type} [DecidableEq α] (m : List (α × β)) (k : α) (f : β → β) :
    List (α × β) :=
  m.map (fun e => if e.1 = k then (e.1, f e.2) else e)

/-- TaxonomyModel.get_node. -/
def TaxonomyModel.get_node (m : TaxonomyModel) (path : List String) : Option TaxonomyNode :=
  alistLookup m.nodes_by_path path

/-- TaxonomyModel.iter_nodes: walk every root node (path length 1) and its
descendants. -/
def TaxonomyModel.iter_nodes (m : TaxonomyModel) : List TaxonomyNode :=
  ((m.nodes_by_path.map Prod.snd).filter (fun n => n.path.length == 1)).flatMap
    TaxonomyNode.iterNodes

/-- analysis.TicketRecord (the classification-relevant fields). -/
structure TicketRecord where
  id : ℤ
  subject : String
  description_text : String
  category : Option String
  sub_category : Option String
  item_category : Option String
  created_at_utc : Option String := none
  final_category : String := ""
  final_sub_category : String := ""
  final_item_category : String := ""
deriving DecidableEq

/-- analysis.SuggestedCategory. -/
structure SuggestedCategory where
  category : Option String
  sub_category : Option String
  item_category : Option String
  confidence : ℚ
  rationale : String
deriving DecidableEq

/-- analysis._MatchResult: the ephemeral per-ticket candidate accumulator. -/
structure MatchResult where
  path : List String
  confidence : ℚ
  rationale : String
  matched_keywords : List String
  matched_regexes : List String
  matched_alias : Option String := none
  alias_legacy : Bool := false
  alias_note : Option String := none
  tfidf_score : ℚ := 0
  priority_override : Option ℕ := none
deriving DecidableEq

/-- The per-ticket candidate map, keyed by taxonomy path. -/
abbrev MatchMap := List (List String × MatchResult)

/-- Python truthiness of an optional string ("" and None are falsy). -/
def optTruthy : Option String → Bool
  | none => false
  | some s => s ≠ ""

/-- TicketAnalyzer._build_rationale. -/
def buildRationale (path : List String) (matched_keywords matched_regexes : List String)
    (aliasMatched : Option String) (alias_legacy : Bool) (alias_note : Option String) : String :=
  let segments : List String :=
    (if matched_keywords.isEmpty then [] else ["keywords " ++ pyListRepr matched_keywords])
    ++ (if matched_regexes.isEmpty then [] else ["regex " ++ pyListRepr matched_regexes])
    ++ (if optTruthy aliasMatched then
          ["alias \x27" ++ aliasMatched.getD "" ++ "\x27" ++
            (if alias_legacy then " (legacy)" else "")]
        else [])
    ++ (if optTruthy alias_note then [alias_note.getD ""] else [])
  let segments := if segments.isEmpty then ["taxonomy rules"] else segments
  "Matched " ++ joinPath path ++ " via " ++ String.intercalate ", " segments

/-- The keywords of a node that match the ticket text (the matched_keywords
accumulation in _match_taxonomy). -/
def matchedKeywords (node : TaxonomyNode) (textLower : String) (tokenSet : List String) :
    List String :=
  ((node.keywords.zip node.keyword_norms).filter
    (fun kv => matchesTerm kv.1 kv.2 textLower tokenSet)).map Prod.fst

/-- The per-node body of the loop in _match_taxonomy. -/
def matchTaxonomyStep (textLower : String) (tokenSet : List String) (acc : MatchMap)
    (node : TaxonomyNode) : MatchMap :=
  if (matchedKeywords node textLower tokenSet).isEmpty then acc
  else
    alistInsert acc node.path
      { path := node.path
        confidence := confidence (matchedKeywords node textLower tokenSet).length
          node.path.length
        rationale := buildRationale node.path (matchedKeywords node textLower tokenSet)
          [] none false none
        matched_keywords := matchedKeywords node textLower tokenSet
        matched_regexes := []
        tfidf_score := 0 }

/-- TicketAnalyzer._match_taxonomy: keyword matching over every node of the
taxonomy; produces the initial per-ticket candidate map.  The regexes stored
on the nodes are not consulted here, exactly as in the source. -/
def matchTaxonomy (model : TaxonomyModel) (text : String) (tokenSet : List String) : MatchMap :=
  model.iter_nodes.foldl (matchTaxonomyStep (pyLower text) tokenSet) []

/-- analysis._ProximityRule. -/
structure ProximityRule where
  path : List String
  term_groups : List (List (List String))
  window : ℕ := 6
  boost : ℚ := 1/10
  description : String := "proximity"

/-- The phrases helper inside _build_proximity_rules: tokenize each option,
keeping the non-empty token tuples. -/
def phrases (options : List String) : List (List String) :=
  (options.map rawTokens).filter (fun t => !t.isEmpty)

/-- TicketAnalyzer._build_proximity_rules: the five hand-authored rules. -/
def proximityRules : List ProximityRule :=
  [ { path := ["Hardware", "Peripherals", "Audio / Video Devices"]
      term_groups := [phrases ["teams"], phrases ["camera"]]
      description := "teams/camera proximity" }
  , { path := ["Software", "Productivity", "MS Office / Outlook"]
      term_groups := [phrases ["outlook"], phrases ["signature"]]
      description := "outlook signature proximity" }
  , { path := ["Remote Access", "VPN (CATO)"]
      term_groups := [phrases ["vpn", "cato"], phrases ["connect", "cannot", "failed"]]
      description := "vpn connectivity proximity" }
  , { path := ["Computer Management", "Drive Mapping"]
      term_groups := [phrases ["drive"], phrases ["mapping", "smb"]]
      description := "drive mapping proximity" }
  , { path := ["Computer Management", "Intune Policy & Configuration"]
      term_groups := [phrases ["intune"], phrases ["policy", "profile", "company portal"]]
      description := "intune policy proximity" } ]

/-- TicketAnalyzer._phrase_positions: all start indices at which the phrase
occurs as a contiguous token run. -/
def phrasePositions (tokens : List String) (phrase : List String) : List ℕ :=
  if phrase.isEmpty then []
  else if tokens.length < phrase.length then []
  else (List.range (tokens.length - phrase.length + 1)).filter
    (fun i => (tokens.drop i).take phrase.length == phrase)

/-- Python sorted(set(xs)) for lists of naturals. -/
def sortedDedup (xs : List ℕ) : List ℕ :=
  (List.range (xs.foldl max 0 + 1)).filter (fun i => xs.contains i)

/-- The deduplicated, sorted position sets of the term groups of a proximity
rule in the token sequence (positions_groups in _apply_proximity_boosts). -/
def proximityPositionGroups (tokens : List String) (rule : ProximityRule) : List (List ℕ) :=
  rule.term_groups.map (fun g => sortedDedup (g.flatMap (phrasePositions tokens)))

/-- The anchor-window test of _apply_proximity_boosts: some anchor position
of the first group is within the window of every other group. -/
def proximityFired (window : ℕ) (anchors : List ℕ) (others : List (List ℕ)) : Bool :=
  anchors.any (fun a =>
    others.all (fun g => g.any (fun p => ((a : ℤ) - (p : ℤ)).natAbs ≤ window)))

/-- The body of the rule loop in TicketAnalyzer._apply_proximity_boosts:
evaluate one proximity rule against the token sequence and update the
candidate map accordingly. -/
def applyProximityRule (model : TaxonomyModel) (tokens : List String)
    (m : MatchMap) (rule : ProximityRule) : MatchMap :=
  if rule.term_groups.length < 2 then m
  else if (model.get_node rule.path).isNone then m
  else if (proximityPositionGroups tokens rule).any (fun g => g.isEmpty) then m
  else
    match proximityPositionGroups tokens rule with
    | [] => m
    | anchors :: others =>
      if !(proximityFired rule.window anchors others) then m
      else
        match alistLookup m rule.path with
        | some _ =>
          alistModify m rule.path (fun r =>
            { r with confidence := round2 (min (r.confidence + rule.boost) (19/20))
                     rationale := r.rationale ++ "; " ++ rule.description })
        | none =>
          alistInsert m rule.path
            { path := rule.path
              confidence := round2 (max (confidence 1 rule.path.length - 1/10) (1/2))
              rationale := "Matched " ++ joinPath rule.path ++ " via " ++ rule.description
              matched_keywords := []
              matched_regexes := []
              tfidf_score := 0 }

/-- TicketAnalyzer._apply_proximity_boosts: no-op on an empty token list,
otherwise fold the five rules over the candidate map. -/
def applyProximityBoosts (model : TaxonomyModel) (m : MatchMap) (tokens : List String) :
    MatchMap :=
  if tokens.isEmpty then m
  else proximityRules.foldl (applyProximityRule model tokens) m

/-- The module-level fuzzy whitelist _FUZZY_WHITELIST (used only through
membership tests). -/
def FUZZY_WHITELIST : List String :=
  ["anyware", "autodesk", "cato", "cinema4d", "citrix", "intune", "mimecast",
   "teradici", "unreal", "vray"]

def FUZZY_SCORE_THRESHOLD : ℚ := 80

def FUZZY_MAX_BOOST : ℚ := 12/100

def FUZZY_NEW_MATCH_BASE : ℚ := 45/100

def FUZZY_NEW_MATCH_CAP : ℚ := 6/10

/-- Add an element to a list unless already present (first-seen-order set). -/
def addUnique (xs : List String) (x : String) : List String :=
  if xs.contains x then xs else xs ++ [x]

/-- TicketAnalyzer._build_fuzzy_terms: for every node, the whitelisted vendor
tokens occurring in its keywords or its label. -/
def buildFuzzyTerms (model : TaxonomyModel) : List (List String × List String) :=
  if FUZZY_WHITELIST.isEmpty then []
  else
    model.iter_nodes.foldl
      (fun acc node =>
        let fromKeywords := node.keywords.foldl
          (fun cs kw => (rawTokens (pyLower kw)).foldl
            (fun cs2 t => if FUZZY_WHITELIST.contains t then addUnique cs2 t else cs2) cs) []
        let cands := (rawTokens (pyLower node.label)).foldl
          (fun cs t => if FUZZY_WHITELIST.contains t then addUnique cs t else cs) fromKeywords
        if cands.isEmpty then acc else alistInsert acc node.path cands)
      []

/-- State of the best-seed search inside _apply_fuzzy_matches. -/
structure FuzzyBest where
  score : ℚ
  seed : Option String
  token : Option String

/-- The inner token loop of _apply_fuzzy_matches for one seed: an exact token
hit scores 100 and stops the scan, otherwise the best strict improvement of
the partial-ratio score is kept. -/
def fuzzyInner (pr : String → String → ℚ) (seed : String) :
    List String → FuzzyBest → FuzzyBest
  | [], st => st
  | tok :: rest, st =>
    if tok = seed then { score := 100, seed := some seed, token := some tok }
    else
      let sc := pr seed tok
      let st2 := if st.score < sc then { score := sc, seed := some seed, token := some tok }
                 else st
      fuzzyInner pr seed rest st2

/-- The outer seed loop of _apply_fuzzy_matches: a seed present in the token
set scores 100 immediately; the scan stops as soon as the best score is
exactly 100. -/
def fuzzyBest (pr : String → String → ℚ) (tokenSet fuzzyTokens : List String) :
    List String → FuzzyBest → FuzzyBest
  | [], st => st
  | seed :: rest, st =>
    if tokenSet.contains seed then { score := 100, seed := some seed, token := some seed }
    else
      let st2 := fuzzyInner pr seed fuzzyTokens st
      if st2.score == 100 then st2 else fuzzyBest pr tokenSet fuzzyTokens rest st2

/-- The fuzzy boost for a best score: min(0.12, (score/100) * 0.12). -/
def fuzzyBoost (score : ℚ) : ℚ :=
  min FUZZY_MAX_BOOST ((score / 100) * FUZZY_MAX_BOOST)

/-- The fuzzy rationale note "fuzzy seed->token score". -/
def fuzzyNote (bseed btok : String) (score : ℚ) : String :=
  "fuzzy " ++ bseed ++ "->" ++ btok ++ " " ++ formatF0 score

/-- The per-path body of TicketAnalyzer._apply_fuzzy_matches; pr is the
third-party rapidfuzz partial-ratio primitive, passed in abstractly. -/
def applyFuzzyPath (pr : String → String → ℚ) (model : TaxonomyModel)
    (tokenSet fuzzyTokens : List String) (m : MatchMap)
    (entry : List String × List String) : MatchMap :=
  if entry.2.isEmpty then m
  else
    match model.get_node entry.1 with
    | none => m
    | some node =>
      match fuzzyBest pr tokenSet fuzzyTokens entry.2 ⟨0, none, none⟩ with
      | ⟨score, some bseed, some btok⟩ =>
        if score < FUZZY_SCORE_THRESHOLD ∨ bseed = "" ∨ btok = "" then m
        else
          match alistLookup m entry.1 with
          | some _ =>
            alistModify m entry.1 (fun r =>
              { r with confidence := round2 (min (r.confidence + fuzzyBoost score) (19/20))
                       rationale := r.rationale ++ "; " ++ fuzzyNote bseed btok score })
          | none =>
            if !node.children.isEmpty then m
            else
              alistInsert m entry.1
                { path := entry.1
                  confidence := round2 (min FUZZY_NEW_MATCH_CAP
                    (FUZZY_NEW_MATCH_BASE + fuzzyBoost score))
                  rationale := "Matched " ++ joinPath entry.1 ++ " via " ++
                    fuzzyNote bseed btok score
                  matched_keywords := []
                  matched_regexes := []
                  tfidf_score := 0 }
      | _ => m

/-- TicketAnalyzer._apply_fuzzy_matches. -/
def applyFuzzyMatches (pr : String → String → ℚ) (model : TaxonomyModel)
    (fuzzyTerms : List (List String × List String)) (m : MatchMap)
    (raw_tokens tokenSet : List String) : MatchMap :=
  if fuzzyTerms.isEmpty || raw_tokens.isEmpty then m
  else
    let uniqueTokens := raw_tokens.foldl addUnique []
    let fuzzyTokens := uniqueTokens.filter (fun t => 3 ≤ t.length)
    fuzzyTerms.foldl (applyFuzzyPath pr model tokenSet fuzzyTokens) m

/-- The body of the score loop in TicketAnalyzer._apply_tfidf_scores:
process one (path, similarity) pair against the candidate map. -/
def applyTfidfItem (model : TaxonomyModel) (leafThreshold weight : ℚ)
    (m : MatchMap) (entry : List String × ℚ) : MatchMap :=
  if entry.2 ≤ 0 then m
  else
    match model.get_node entry.1 with
    | none => m
    | some node =>
      match alistLookup m entry.1 with
      | some _ =>
        alistModify m entry.1 (fun r =>
          { r with tfidf_score := max r.tfidf_score entry.2
                   confidence := round2 (min (r.confidence + entry.2 * weight) (19/20))
                   rationale :=
                     if strContains r.rationale "tf-idf" then
                       r.rationale ++ " (" ++ formatF2 entry.2 ++ ")"
                     else r.rationale ++ "; tf-idf " ++ formatF2 entry.2 })
      | none =>
        if !node.children.isEmpty then m
        else if entry.2 < leafThreshold then m
        else
          alistInsert m entry.1
            { path := entry.1
              confidence := round2 (min (1/2 + entry.2 * weight) (9/10))
              rationale := "Matched " ++ joinPath entry.1 ++ " via tf-idf similarity " ++
                formatF2 entry.2
              matched_keywords := []
              matched_regexes := []
              tfidf_score := entry.2 }

/-- TicketAnalyzer._apply_tfidf_scores. -/
def applyTfidfScores (model : TaxonomyModel) (leafThreshold weight : ℚ) (m : MatchMap)
    (tfidf_scores : List (List String × ℚ)) : MatchMap :=
  if tfidf_scores.isEmpty then m
  else tfidf_scores.foldl (applyTfidfItem model leafThreshold weight) m

/-- Base priority rank of a path: priority_map.get(path, len(priority_map)+1). -/
def basePriority (model : TaxonomyModel) (path : List String) : ℕ :=
  (alistLookup model.priority_map path).getD (model.priority_map.length + 1)

/-- The Citrix guard of TicketAnalyzer._apply_negative_keywords. -/
def applyCitrixGuard (model : TaxonomyModel) (tokenSet : List String) (m : MatchMap) :
    MatchMap :=
  if (alistLookup m ["Remote Access", "Citrix (Legacy)"]).isSome &&
      (["anyware", "rdp", "cato"].any (fun t => tokenSet.contains t)) then
    alistModify m ["Remote Access", "Citrix (Legacy)"] (fun r =>
      { r with confidence := round2 (max (r.confidence - 3/10) (1/20))
               priority_override :=
                 some (basePriority model r.path + model.priority_map.length + 10)
               rationale := r.rationale ++ "; demoted due to Anyware/RDP context" })
  else m

/-- Whether a taxonomy path mentions a topic: some segment contains the topic
after lowercasing. -/
def pathMentions (path : List String) (topic : String) : Bool :=
  path.any (fun part => strContains (pyLower part) topic)

/-- The "not vpn" guard of TicketAnalyzer._apply_negative_keywords: every
candidate whose path mentions vpn is demoted in place; nothing is removed. -/
def applyNotVpnGuard (model : TaxonomyModel) (textLower : String) (m : MatchMap) : MatchMap :=
  if strContains textLower "not vpn" then
    m.map (fun e =>
      if pathMentions e.2.path "vpn" then
        (e.1,
          { e.2 with
              confidence := round2 (max (e.2.confidence - 45/100) (1/20))
              priority_override :=
                some (basePriority model e.2.path + model.priority_map.length + 5)
              rationale := e.2.rationale ++ "; reduced by \x27not vpn\x27 guard" })
      else e)
  else m

/-- The Teams guard of TicketAnalyzer._apply_negative_keywords. -/
def applyTeamsGuard (model : TaxonomyModel) (textLower : String) (m : MatchMap) : MatchMap :=
  if strContains textLower "not a teams issue" || strContains textLower "not a teams problem" then
    m.map (fun e =>
      if pathMentions e.2.path "teams" then
        (e.1,
          { e.2 with
              confidence := round2 (max (e.2.confidence - 35/100) (1/20))
              priority_override :=
                some (basePriority model e.2.path + model.priority_map.length + 5)
              rationale := e.2.rationale ++ "; reduced by \x27not a teams issue\x27 guard" })
      else e)
  else m

/-- TicketAnalyzer._apply_negative_keywords: the three guards in source order,
a no-op on the empty candidate map. -/
def applyNegativeKeywords (model : TaxonomyModel) (m : MatchMap)
    (tokens : List String) (textLower : String) : MatchMap :=
  if m.isEmpty then m
  else
    applyTeamsGuard model textLower
      (applyNotVpnGuard model textLower (applyCitrixGuard model tokens m))

/-- TicketAnalyzer._cosine_similarity on sparse normalised vectors: iterate
the smaller dict, skipping tokens whose looked-up weight is absent or zero
(the source checks Python truthiness of the looked-up value). -/
def cosineSimilarity (va vb : List (String × ℚ)) : ℚ :=
  if va.isEmpty || vb.isEmpty then 0
  else
    let p := if vb.length < va.length then (vb, va) else (va, vb)
    p.1.foldl
      (fun total e =>
        match alistLookup p.2 e.1 with
        | some w => if w ≠ 0 then total + e.2 * w else total
        | none => total)
      0

/-- Python Counter over a token list, as (token, count) pairs in
first-occurrence order. -/
def counterOf (tokens : List String) : List (String × ℕ) :=
  (tokens.foldl addUnique []).map (fun t => (t, (tokens.filter (fun x => x == t)).length))

/-- TicketAnalyzer._build_tfidf_vector; sqrtQ is the abstract math.sqrt. -/
def buildTfidfVector (sqrtQ : ℚ → ℚ) (tokens : List String)
    (idf : String → Option ℚ) (default_idf : ℚ) : List (String × ℚ) :=
  if tokens.isEmpty then []
  else
    let counts := counterOf tokens
    let total : ℚ := ((counts.foldl (fun s e => s + e.2) 0 : ℕ) : ℚ)
    if total == 0 then []
    else
      let weights := (counts.map (fun e =>
        (e.1, ((e.2 : ℚ) / total) * ((idf e.1).getD default_idf)))).filter
          (fun e => 0 < e.2)
      if weights.isEmpty then []
      else
        let norm := sqrtQ (weights.foldl (fun s e => s + e.2 * e.2) 0)
        if norm == 0 then []
        else weights.map (fun e => (e.1, e.2 / norm))

/-- analysis._TfidfArtifacts. -/
structure TfidfArtifacts where
  ticket_vectors : List (List (String × ℚ))
  prototype_vectors : List (List (String × ℚ))
  prototype_paths : List (List String)

/-- Number of documents of the batch containing a token (the doc_freq
Counter queried through idf_map.get). -/
def docFreq (token_docs : List (List String)) (t : String) : ℕ :=
  (token_docs.filter (fun d => d.contains t)).length

/-- Accumulate tokens under a path key (tokens_by_path defaultdict extend). -/
def tbpExtend (acc : List (List String × List String)) (key : List String)
    (tokens : List String) : List (List String × List String) :=
  match alistLookup acc key with
  | some old => alistInsert acc key (old ++ tokens)
  | none => acc ++ [(key, tokens)]

/-- The per-ticket body of the tokens_by_path accumulation in
_build_tfidf_artifacts: grow the path from the ticket record fields, adding
the ticket tokens at every prefix that names an existing taxonomy node. -/
def tbpStep (model : TaxonomyModel) (acc : List (List String × List String))
    (t : TicketRecord) (tokens : List String) : List (List String × List String) :=
  let step := fun (st : List (List String × List String) × List String)
      (field : Option String) =>
    if optTruthy field then
      let pp := st.2 ++ [field.getD ""]
      (if (model.get_node pp).isSome then tbpExtend st.1 pp tokens else st.1, pp)
    else st
  (step (step (step (acc, []) t.category) t.sub_category) t.item_category).1

/-- The per-batch lowercased corpus of combined ticket texts. -/
def corpusOf (tickets : List TicketRecord) : List String :=
  tickets.map (fun t => pyLower (pyStrip (t.subject ++ " " ++ t.description_text)))

/-- The tokenized corpus documents. -/
def tokenDocsOf (tickets : List TicketRecord) : List (List String) :=
  (corpusOf tickets).map rawTokens

/-- The tokens_by_path accumulation of _build_tfidf_artifacts: the token bag
of every ticket whose existing category fields resolve to a taxonomy path. -/
def tokensByPathOf (model : TaxonomyModel) (tickets : List TicketRecord) :
    List (List String × List String) :=
  (tickets.zip (tokenDocsOf tickets)).foldl (fun acc e => tbpStep model acc e.1 e.2) []

/-- The idf_map.get lookup of _build_tfidf_artifacts as a function: tokens
absent from every document fall back to the default idf. -/
def idfOf (logQ : ℚ → ℚ) (token_docs : List (List String)) : String → Option ℚ :=
  fun t =>
    if docFreq token_docs t == 0 then none
    else some (logQ ((1 + (token_docs.length : ℚ)) / (1 + (docFreq token_docs t : ℚ))) + 1)

/-- The default idf ln(1 + N) + 1. -/
def defaultIdfOf (logQ : ℚ → ℚ) (doc_count : ℕ) : ℚ :=
  logQ (1 + (doc_count : ℚ)) + 1

/-- The per-leaf prototype accumulation of _build_tfidf_artifacts. -/
def prototypesOf (logQ sqrtQ : ℚ → ℚ) (model : TaxonomyModel)
    (token_docs : List (List String)) (tokens_by_path : List (List String × List String)) :
    List (List String × List (String × ℚ)) :=
  model.nodes_by_path.foldl
    (fun acc e =>
      if !e.2.children.isEmpty then acc
      else
        if (buildTfidfVector sqrtQ
            (e.2.keywords.flatMap (fun kw => rawTokens (pyLower kw)) ++
              ((alistLookup tokens_by_path e.1).getD []))
            (idfOf logQ token_docs) (defaultIdfOf logQ token_docs.length)).isEmpty then acc
        else acc ++ [(e.1, buildTfidfVector sqrtQ
            (e.2.keywords.flatMap (fun kw => rawTokens (pyLower kw)) ++
              ((alistLookup tokens_by_path e.1).getD []))
            (idfOf logQ token_docs) (defaultIdfOf logQ token_docs.length))])
    []

/-- TicketAnalyzer._build_tfidf_artifacts; logQ and sqrtQ are the abstract
math.log and math.sqrt primitives. -/
def buildTfidfArtifacts (logQ sqrtQ : ℚ → ℚ) (model : TaxonomyModel)
    (tickets : List TicketRecord) : Option TfidfArtifacts :=
  if tickets.isEmpty then none
  else if !(corpusOf tickets).any (fun s => s ≠ "") then none
  else if !(tokenDocsOf tickets).any (fun d => !d.isEmpty) then none
  else if (tokenDocsOf tickets).length == 0 ||
      !(tokenDocsOf tickets).any (fun d => !d.isEmpty) then none
  else if (prototypesOf logQ sqrtQ model (tokenDocsOf tickets)
      (tokensByPathOf model tickets)).isEmpty then none
  else
    some { ticket_vectors := (tokenDocsOf tickets).map
             (fun d => buildTfidfVector sqrtQ d (idfOf logQ (tokenDocsOf tickets))
               (defaultIdfOf logQ (tokenDocsOf tickets).length))
           prototype_vectors := (prototypesOf logQ sqrtQ model (tokenDocsOf tickets)
             (tokensByPathOf model tickets)).map Prod.snd
           prototype_paths := (prototypesOf logQ sqrtQ model (tokenDocsOf tickets)
             (tokensByPathOf model tickets)).map Prod.fst }

/-- TicketAnalyzer._compute_tfidf_scores: one (path, positive similarity)
map per ticket, in batch order. -/
def computeTfidfScores (logQ sqrtQ : ℚ → ℚ) (model : TaxonomyModel)
    (tickets : List TicketRecord) : Option (List (List (List String × ℚ))) :=
  match buildTfidfArtifacts logQ sqrtQ model tickets with
  | none => none
  | some a =>
    some (a.ticket_vectors.map (fun tv =>
      (a.prototype_paths.zip a.prototype_vectors).foldl
        (fun sm e =>
          let v := cosineSimilarity tv e.2
          if 0 < v then alistInsert sm e.1 v else sm)
        []))

/-- The sort-key codomain of _sorted_matches: priority rank, negated depth,
negated confidence, then the path, compared lexicographically; paths are
compared the way Python compares tuples of strings (by character), realised
as lists of character lists. -/
abbrev SortKey := ℕ ×ₗ (ℤ ×ₗ (ℚ ×ₗ List (List Char)))

/-- The sort key of one candidate in TicketAnalyzer._sorted_matches. -/
def sortKey (model : TaxonomyModel) (r : MatchResult) : SortKey :=
  let priority_rank := r.priority_override.getD (basePriority model r.path)
  toLex (priority_rank,
    toLex ((-(r.path.length : ℤ)),
      toLex ((-r.confidence), r.path.map String.toList)))

/-- The candidate order of _sorted_matches: nondecreasing sort key. -/
def sortKeyLe (model : TaxonomyModel) (a b : MatchResult) : Prop :=
  sortKey model a ≤ sortKey model b

instance (model : TaxonomyModel) : DecidableRel (sortKeyLe model) := fun a b =>
  inferInstanceAs (Decidable (sortKey model a ≤ sortKey model b))

/-- TicketAnalyzer._sorted_matches.  Python sorted() is a stable sort by the
key; candidate paths are distinct map keys, so the sort key is injective on
the entries and any correct stable sort yields the same list. -/
def sortedMatches (model : TaxonomyModel) (m : MatchMap) : List MatchResult :=
  List.insertionSort (sortKeyLe model) (m.map Prod.snd)

/-- The target path of TicketAnalyzer._fallback_match: the first
nodes_by_path key extending General IT > Questions (truncated to depth 2),
else the bare General IT root. -/
def fallbackTarget (model : TaxonomyModel) : Option (List String) :=
  match ((model.nodes_by_path.map Prod.fst).find? (fun p =>
      2 ≤ p.length && p.get? 0 == some "General IT" && p.get? 1 == some "Questions")).map
      (fun p => p.take 2) with
  | some t => some t
  | none =>
    (model.nodes_by_path.map Prod.fst).find?
      (fun p => p.length == 1 && p.get? 0 == some "General IT")

/-- The fixed fallback confidence by target depth. -/
def fallbackConfidence (tp : List String) : ℚ :=
  if tp.length == 3 then 6/10
  else if tp.length == 2 then 11/20
  else if tp.length == 1 then 1/2
  else 9/20

/-- TicketAnalyzer._fallback_match. -/
def fallbackMatch (model : TaxonomyModel) : Option MatchResult :=
  match fallbackTarget model with
  | none => none
  | some tp =>
    some { path := tp
           confidence := fallbackConfidence tp
           rationale := "Fallback to General IT > Questions"
           matched_keywords := []
           matched_regexes := [] }

/-- The primary-selection scan of suggest_categories: the first candidate of
depth 3, else depth 2, else depth 1, in sorted order. -/
def primaryScan (ordered : List MatchResult) : Option MatchResult :=
  match ordered.find? (fun r => r.path.length == 3) with
  | some r => some r
  | none =>
    match ordered.find? (fun r => r.path.length == 2) with
    | some r => some r
    | none => ordered.find? (fun r => r.path.length == 1)

/-- The ordered candidate list of suggest_categories, with the fallback
candidate inserted at the front when no primary classification was found. -/
def orderedMatches (model : TaxonomyModel) (m : MatchMap) : List MatchResult :=
  match primaryScan (sortedMatches model m) with
  | some _ => sortedMatches model m
  | none =>
    match fallbackMatch model with
    | some fb => fb :: sortedMatches model m
    | none => sortedMatches model m

/-- The primary classification of suggest_categories (scan result, else the
fallback candidate). -/
def primaryOf (model : TaxonomyModel) (m : MatchMap) : Option MatchResult :=
  match primaryScan (sortedMatches model m) with
  | some r => some r
  | none => fallbackMatch model

/-- Conversion of a candidate into a SuggestedCategory as emitted by
suggest_categories. -/
def toSuggested (r : MatchResult) : SuggestedCategory :=
  { category := r.path.get? 0
    sub_category := r.path.get? 1
    item_category := r.path.get? 2
    confidence := round2 r.confidence
    rationale := r.rationale }

/-- The analyzer state set up by TicketAnalyzer.__init__ (the fields the
classification pipeline reads). -/
structure TicketAnalyzer where
  taxonomy : TaxonomyModel
  keyword_min_length : ℕ
  min_keyword_frequency : ℕ
  max_suggestions_per_ticket : ℕ
  stop_words : List String
  tfidf_leaf_threshold : ℚ
  tfidf_weight : ℚ
  fuzzy_terms : List (List String × List String)

/-- TicketAnalyzer.__init__ with its normalisations: at least one suggestion
per ticket, non-negative tf-idf parameters, lowercased stop words, and the
precomputed fuzzy-term index; the proximity rules are the fixed
proximityRules table. -/
def mkAnalyzer (taxonomy : TaxonomyModel)
    (keyword_min_length min_keyword_frequency max_suggestions_per_ticket : ℕ)
    (stop_words : List String)
    (tfidf_leaf_threshold tfidf_weight : ℚ) : TicketAnalyzer :=
  { taxonomy := taxonomy
    keyword_min_length := keyword_min_length
    min_keyword_frequency := min_keyword_frequency
    max_suggestions_per_ticket := max 1 max_suggestions_per_ticket
    stop_words := stop_words.map pyLower
    tfidf_leaf_threshold := max 0 tfidf_leaf_threshold
    tfidf_weight := max 0 tfidf_weight
    fuzzy_terms := buildFuzzyTerms taxonomy }

/-- The per-ticket candidate map of suggest_categories after all signal
stages (keyword, proximity, fuzzy, tf-idf, negative keywords), as a function
of the combined subject-and-description text and the precomputed tf-idf
score map of the ticket. -/
def candidateMap (pr : String → String → ℚ) (an : TicketAnalyzer)
    (combined : String) (tfidfMap : List (List String × ℚ)) : MatchMap :=
  let raw := rawTokens combined
  let tokenSet := raw
  let m1 := matchTaxonomy an.taxonomy combined tokenSet
  let m2 := applyProximityBoosts an.taxonomy m1 raw
  let m3 := applyFuzzyMatches pr an.taxonomy an.fuzzy_terms m2 raw tokenSet
  let m4 := applyTfidfScores an.taxonomy an.tfidf_leaf_threshold an.tfidf_weight m3 tfidfMap
  applyNegativeKeywords an.taxonomy m4 raw (pyLower combined)

/-- The suggestion list emitted for one ticket: the ordered candidates,
truncated to the configured maximum and converted. -/
def suggestionListFor (pr : String → String → ℚ) (an : TicketAnalyzer)
    (combined : String) (tfidfMap : List (List String × ℚ)) : List SuggestedCategory :=
  ((orderedMatches an.taxonomy (candidateMap pr an combined tfidfMap)).take
    an.max_suggestions_per_ticket).map toSuggested

/-- The combined subject-and-description text of a ticket as classified by
suggest_categories. -/
def combinedText (t : TicketRecord) : String :=
  pyStrip (t.subject ++ " " ++ t.description_text)

/-- The body of the per-ticket loop of suggest_categories: compute the
suggestion list and, when a primary classification exists, write the top
suggestion back onto the ticket record. -/
def suggestOne (pr : String → String → ℚ) (an : TicketAnalyzer)
    (t : TicketRecord) (tfidfMap : List (List String × ℚ)) :
    List SuggestedCategory × TicketRecord :=
  match primaryOf an.taxonomy (candidateMap pr an (combinedText t) tfidfMap),
        suggestionListFor pr an (combinedText t) tfidfMap with
  | some _, top :: rest =>
    (top :: rest, { t with final_category := top.category.getD ""
                           final_sub_category := top.sub_category.getD ""
                           final_item_category := top.item_category.getD "" })
  | _, sl => (sl, t)

/-- The pairing of each ticket of the batch with its tf-idf score map (the
empty map when the batch yields no artifacts), in batch order. -/
def ticketScorePairs (logQ sqrtQ : ℚ → ℚ) (an : TicketAnalyzer)
    (tickets : List TicketRecord) : List (TicketRecord × List (List String × ℚ)) :=
  match computeTfidfScores logQ sqrtQ an.taxonomy tickets with
  | none => tickets.map (fun t => (t, ([] : List (List String × ℚ))))
  | some ms => tickets.zip ms

/-- TicketAnalyzer.suggest_categories: build the per-batch tf-idf score maps,
classify each ticket, and return the id-keyed suggestion dict together with
the updated ticket records (the source mutates the records in place). -/
def suggestCategories (pr : String → String → ℚ) (logQ sqrtQ : ℚ → ℚ)
    (an : TicketAnalyzer) (tickets : List TicketRecord) :
    List (ℤ × List SuggestedCategory) × List TicketRecord :=
  ((((ticketScorePairs logQ sqrtQ an tickets).map
      (fun e => (e.1.id, suggestOne pr an e.1 e.2))).foldl
        (fun acc e => alistInsert acc e.1 e.2.1) []),
   ((ticketScorePairs logQ sqrtQ an tickets).map
      (fun e => (e.1.id, suggestOne pr an e.1 e.2))).map (fun e => e.2.2))

/-- The alias-rule loop of TicketAnalyzer._evaluate_aliases.  When a rule
matches, the source calls self._confidence(1, 0, len(rule.target_path),
alias=True), passing positional arguments to a keyword-only signature, so
the call raises TypeError; a matching rule is therefore modelled as an
error.  The routine is defined in the source but never invoked by
suggest_categories. -/
def evaluateAliasesAux (text textLower : String) (tokenSet : List String) :
    List AliasRule → Except String (List MatchResult)
  | [] => .ok []
  | rule :: rest =>
    let matched :=
      match rule.regex with
      | some rgx => rgx.search text
      | none => matchesTerm rule.aliasName (pyLower rule.aliasName) textLower tokenSet
    if matched then
      .error "TypeError: _confidence() takes 1 positional argument but 4 were given"
    else evaluateAliasesAux text textLower tokenSet rest

/-- TicketAnalyzer._evaluate_aliases over the alias rules of the model. -/
def evaluateAliases (model : TaxonomyModel) (text textLower : String)
    (tokenSet : List String) : Except String (List MatchResult) :=
  evaluateAliasesAux text textLower tokenSet model.alias_rules

/-- Python str.replace on character lists (all occurrences, left to right). -/
def strReplaceAux (needle repl : List Char) : List Char → List Char
  | [] => []
  | c :: rest =>
    if needle ≠ [] ∧ needle.isPrefixOf (c :: rest) then
      repl ++ strReplaceAux needle repl (rest.drop (needle.length - 1))
    else c :: strReplaceAux needle repl rest
termination_by cs => cs.length
decreasing_by
  all_goals simp [List.length_drop]
  omega

/-- Python str.replace. -/
def pyReplace (s src repl : String) : String :=
  if src = "" then s
  else String.mk (strReplaceAux src.toList repl.toList s.toList)

/-- Python str.split on a single separator character (keeps empty pieces). -/
def splitOnChar (sep : Char) : List Char → List Char → List String
  | [], acc => [String.mk acc.reverse]
  | c :: rest, acc =>
    if c == sep then String.mk acc.reverse :: splitOnChar sep rest []
    else splitOnChar sep rest (c :: acc)

/-- Python suffix test via character lists. -/
def pyEndsWith (s suffix : String) : Bool :=
  suffix.toList.isSuffixOf s.toList

/-- taxonomy._VENDOR_EXPANSIONS. -/
def VENDOR_EXPANSIONS : List (String × List String) :=
  [("ms", ["microsoft"]), ("m365", ["office 365", "microsoft 365"]),
   ("cc", ["creative cloud"]), ("ad", ["active directory"])]

/-- taxonomy._SIMPLE_ALIASES. -/
def SIMPLE_ALIASES : List (String × List String) :=
  [("v-ray", ["vray"]), ("vray", ["v-ray"]),
   ("c4d", ["cinema4d", "cinema 4d"]), ("cinema4d", ["c4d", "cinema 4d"]),
   ("cinema 4d", ["c4d", "cinema4d"]),
   ("sign-in", ["signin", "sign in"]), ("sign in", ["signin", "sign-in"]),
   ("signin", ["sign-in", "sign in"])]

/-- One scan step of the camel-case findall over
[A-Z]+(?=[A-Z][a-z])|[A-Z]?[a-z]+|\d+ : the token matched at the current
position, if any, and how many characters the scan consumes (at least the
current one). -/
def camelStep (c : Char) (rest : List Char) : Option (List Char) × ℕ :=
  let cs := c :: rest
  let uRun := cs.takeWhile (fun x => x.isUpper)
  let m := uRun.length
  if 2 ≤ m ∧ (cs.drop m).head?.any (fun x => x.isLower) then
    (some (uRun.take (m - 1)), m - 1)
  else if c.isUpper ∧ rest.head?.any (fun x => x.isLower) then
    (some (c :: rest.takeWhile (fun x => x.isLower)), 1 + (rest.takeWhile (fun x => x.isLower)).length)
  else if c.isLower then
    (some (cs.takeWhile (fun x => x.isLower)), (cs.takeWhile (fun x => x.isLower)).length)
  else if c.isDigit then
    (some (cs.takeWhile (fun x => x.isDigit)), (cs.takeWhile (fun x => x.isDigit)).length)
  else (none, 1)

/-- Scan of taxonomy._split_camel_case, mirroring re.findall over the
camel-case pattern (leftmost, non-overlapping, advancing one character on
failure). -/
def splitCamelCaseAux : List Char → List (List Char)
  | [] => []
  | c :: rest =>
    let s := camelStep c rest
    let next := splitCamelCaseAux (rest.drop (s.2 - 1))
    match s.1 with
    | some tok => tok :: next
    | none => next
termination_by cs => cs.length
decreasing_by
  simp [List.length_drop]
  omega

/-- taxonomy._split_camel_case: findall parts, else the token itself. -/
def splitCamelCase (token : String) : List String :=
  let parts := (splitCamelCaseAux token.toList).map String.mk
  if parts.isEmpty then [token] else parts

/-- taxonomy._split_label_tokens. -/
def splitLabelTokens (label : String) : List String :=
  (findallTokens label).flatMap (fun token =>
    ((splitCamelCase token).map pyLower).filter (fun l => l ≠ ""))

/-- taxonomy._delimiter_variants. -/
def delimiterVariants (text : String) : List String :=
  let lowered := pyLower text
  ([("-", [" ", ""]), (" ", ["-", ""]), ("/", [" ", "-"])]).foldl
    (fun acc sr =>
      if strContains text sr.1 then
        sr.2.foldl
          (fun acc2 repl =>
            let variant := pyReplace text sr.1 repl
            if pyLower variant ≠ lowered then acc2 ++ [variant] else acc2)
          acc
      else acc)
    []

/-- taxonomy._plural_forms. -/
def pluralForms (token : String) : List String :=
  if pyEndsWith token "s" ∧ 1 < token.length then [String.mk token.toList.dropLast]
  else if 2 < token.length then
    (if pyEndsWith token "y" then [String.mk token.toList.dropLast ++ "ies"] else [])
      ++ [token ++ "s"]
  else []

/-- The _add closure of _derive_label_keywords: state is the keyword list
plus the case-insensitive seen set (as a list of norms). -/
def dlkAdd (st : List String × List String) (term : String) : List String × List String :=
  let norm := pyLower (pyStrip term)
  if norm = "" then st
  else if st.2.contains norm then st
  else (st.1 ++ [pyStrip term], st.2 ++ [norm])

/-- The _add_with_aliases closure of _derive_label_keywords. -/
def dlkAddWithAliases (st : List String × List String) (term : String) :
    List String × List String :=
  let st1 := dlkAdd st term
  ((alistLookup SIMPLE_ALIASES (pyLower (pyStrip term))).getD []).foldl dlkAdd st1

/-- taxonomy._derive_label_keywords. -/
def deriveLabelKeywords (label : String) (extras : List String) : List String :=
  let tokens := splitLabelTokens label
  let st0 : List String × List String := ([], [])
  let base := pyStrip label
  let st1 :=
    if base ≠ "" then (delimiterVariants base).foldl dlkAddWithAliases (dlkAddWithAliases st0 base)
    else st0
  let lowerLabel := pyLower base
  let st2 := if lowerLabel ≠ "" ∧ lowerLabel ≠ base then dlkAddWithAliases st1 lowerLabel else st1
  let st3 := tokens.foldl
    (fun st token =>
      let a := dlkAddWithAliases st token
      let b := (pluralForms token).foldl dlkAddWithAliases a
      ((alistLookup VENDOR_EXPANSIONS token).getD []).foldl dlkAddWithAliases b)
    st2
  let maxSpan := min 4 tokens.length
  let st4 := ((List.range (maxSpan + 1 - 2)).map (fun i => i + 2)).foldl
    (fun st span =>
      (List.range (tokens.length - span + 1)).foldl
        (fun st2 index =>
          let phrase := String.intercalate " " ((tokens.drop index).take span)
          let a := dlkAddWithAliases st2 phrase
          let b := dlkAddWithAliases a (pyReplace phrase " " "")
          dlkAddWithAliases b (pyReplace phrase " " "-"))
        st)
    st3
  (extras.foldl dlkAddWithAliases st4).1

/-- A taxonomy path in a configuration file: either a list of labels or a
string of " > "-separated labels (taxonomy._normalise_priority_path input). -/
inductive PathSpec where
  | parts (xs : List String)
  | pathStr (s : String)
deriving DecidableEq

/-- Python truthiness of a path value (None is modelled by the surrounding
Option). -/
def pathSpecTruthy : PathSpec → Bool
  | .parts xs => !xs.isEmpty
  | .pathStr s => s ≠ ""

/-- taxonomy._normalise_priority_path. -/
def normalisePriorityPath : PathSpec → List String
  | .parts xs => xs.filter (fun p => p ≠ "")
  | .pathStr s => ((splitOnChar '>' s.toList []).map pyStrip).filter (fun p => p ≠ "")

/-- One entry of the declarative taxonomy tree (a config dict; a missing
label key is the none case). -/
inductive NodeEntry where
  | mk (label : Option String) (keywords : List String) (regexes : List String)
      (aliases : List String) (children : List NodeEntry)

def NodeEntry.label : NodeEntry → Option String
  | .mk l _ _ _ _ => l

def NodeEntry.keywords : NodeEntry → List String
  | .mk _ k _ _ _ => k

def NodeEntry.regexes : NodeEntry → List String
  | .mk _ _ r _ _ => r

def NodeEntry.aliases : NodeEntry → List String
  | .mk _ _ _ a _ => a

def NodeEntry.children : NodeEntry → List NodeEntry
  | .mk _ _ _ _ c => c

/-- One entry of the taxonomy "aliases" configuration list. -/
structure AliasEntry where
  aliasValue : Option String
  target : Option PathSpec
  legacy : Bool := false
  note : Option String := none
  regex : Bool := false

/-- The taxonomy section of the configuration (the declarative-tree branch
of build_taxonomy_model). -/
structure TaxonomyConfig where
  tree : List NodeEntry
  aliases : List AliasEntry := []
  priority_order : List PathSpec := []

/-- Mutable construction state threaded through _build_node. -/
structure BuildState where
  nodes_by_path : List (List String × TaxonomyNode)
  alias_rules : List AliasRule

mutual

/-- taxonomy._build_node; compile is the abstract re.compile.  The node is
registered before its children are built (the dict entry is updated in
place once the children are attached, as the Python dict holds a reference
to the mutated node object). -/
def buildNode (compile : String → PyRegex) (max_depth : ℕ) (parent_path : List String)
    (entry : NodeEntry) (st : BuildState) : Except String (TaxonomyNode × BuildState) :=
  match entry with
  | .mk labelOpt kws rgs als childEntries =>
    match labelOpt with
    | none => .error "Each taxonomy node must include a \x27label\x27 field"
    | some lbl =>
      if pyStrip lbl = "" then .error "Taxonomy node labels must be non-empty strings"
      else
        let label := pyStrip lbl
        let path := parent_path ++ [label]
        if max_depth < path.length then
          .error ("Taxonomy depth exceeds the supported maximum of " ++ toString max_depth ++
            " levels: " ++ joinPath path)
        else
          let keywords := deriveLabelKeywords label kws
          let regexes := rgs.map compile
          let node0 := TaxonomyNode.mk label path keywords (keywords.map pyLower) regexes als []
          if (alistLookup st.nodes_by_path path).isSome then
            .error ("Duplicate taxonomy path detected: " ++ joinPath path)
          else
            let st1 : BuildState :=
              { nodes_by_path := st.nodes_by_path ++ [(path, node0)]
                alias_rules := st.alias_rules ++
                  als.map (fun a => { aliasName := a, target_path := path }) }
            match buildChildren compile max_depth path childEntries st1 with
            | .error e => .error e
            | .ok (childNodes, st2) =>
              let node := TaxonomyNode.mk label path keywords (keywords.map pyLower) regexes
                als childNodes
              .ok (node, { st2 with nodes_by_path := alistInsert st2.nodes_by_path path node })

/-- The child loop of _build_node (and the top-level tree loop of
build_taxonomy_model). -/
def buildChildren (compile : String → PyRegex) (max_depth : ℕ) (parent_path : List String) :
    List NodeEntry → BuildState → Except String (List TaxonomyNode × BuildState)
  | [], st => .ok ([], st)
  | e :: rest, st =>
    match buildNode compile max_depth parent_path e st with
    | .error err => .error err
    | .ok (n, st1) =>
      match buildChildren compile max_depth parent_path rest st1 with
      | .error err => .error err
      | .ok (ns, st2) => .ok (n :: ns, st2)

end

/-- taxonomy._parse_alias_rules: missing or empty alias or target raise; an
alias whose target path is not a configured node only logs a warning and the
rule is still appended. -/
def parseAliasRules (compile : String → PyRegex)
    (nodes_by_path : List (List String × TaxonomyNode)) :
    List AliasEntry → List AliasRule → Except String (List AliasRule)
  | [], rules => .ok rules
  | entry :: rest, rules =>
    let a := pyStrip (entry.aliasValue.getD "")
    if a = "" then .error "Alias entries must include a non-empty \x27alias\x27 field"
    else
      match entry.target with
      | none => .error ("Alias \x27" ++ a ++ "\x27 is missing a target path")
      | some spec =>
        if !pathSpecTruthy spec then .error ("Alias \x27" ++ a ++ "\x27 is missing a target path")
        else
          let target_path := normalisePriorityPath spec
          let pattern := if entry.regex then some (compile a) else none
          parseAliasRules compile nodes_by_path rest
            (rules ++ [{ aliasName := a, target_path := target_path, legacy := entry.legacy,
                         note := entry.note, regex := pattern }])

/-- taxonomy.build_taxonomy_model, declarative-tree branch (a present,
non-None config).  The metadata-only branch (_build_model_from_metadata) and
the final metadata cross-checks are warning-only logging and are outside
this embedding. -/
def buildTaxonomyModel (compile : String → PyRegex) (config : TaxonomyConfig)
    (max_depth : ℕ) : Except String TaxonomyModel :=
  if config.tree.isEmpty then .error "taxonomy.tree must be a non-empty list"
  else
    match buildChildren compile max_depth [] config.tree
        { nodes_by_path := [], alias_rules := [] } with
    | .error e => .error e
    | .ok (_, st) =>
      match (if config.aliases.isEmpty then .ok st.alias_rules
             else parseAliasRules compile st.nodes_by_path config.aliases st.alias_rules) with
      | .error e => .error e
      | .ok rules =>
        let pm := (config.priority_order.foldl
          (fun (acc : List (List String × ℕ) × ℕ) entry =>
            let path := normalisePriorityPath entry
            if path.isEmpty then (acc.1, acc.2 + 1)
            else (alistInsert acc.1 path acc.2, acc.2 + 1))
          ([], 0)).1
        .ok { nodes_by_path := st.nodes_by_path, priority_map := pm,
              alias_rules := rules, max_depth := max_depth }

/-! ### Concrete instances used to exhibit witnesses and counterexamples -/

/-- A regex compiler whose patterns match nothing (used where regex content
is irrelevant). -/
def noSearch : String → PyRegex := fun p => ⟨p, fun _ => false⟩

/-- The zero function standing in for an arbitrary math.log / math.sqrt. -/
def zeroFn : ℚ → ℚ := fun _ => 0

/-- The zero function standing in for an arbitrary partial-ratio scorer. -/
def zeroPr : String → String → ℚ := fun _ _ => 0

def gitQuestionsNode : TaxonomyNode :=
  .mk "Questions" ["General IT", "Questions"] [] [] [] [] []

def gitRootNode : TaxonomyNode :=
  .mk "General IT" ["General IT"] [] [] [] [] [gitQuestionsNode]

/-- A taxonomy holding exactly General IT > Questions, with no keywords. -/
def modelGIT : TaxonomyModel :=
  { nodes_by_path := [(["General IT"], gitRootNode),
      (["General IT", "Questions"], gitQuestionsNode)]
    priority_map := []
    alias_rules := []
    max_depth := 3 }

def anGIT : TicketAnalyzer := mkAnalyzer modelGIT 4 3 3 [] (5/100) (35/100)

def ticketMisc : TicketRecord :=
  { id := 400, subject := "zzz", description_text := "qqq", category := none,
    sub_category := none, item_category := none }

/-- The suggestion the fallback produces for modelGIT. -/
def fbSuggestionGIT : SuggestedCategory :=
  { category := some "General IT", sub_category := some "Questions", item_category := none,
    confidence := 11/20, rationale := "Fallback to General IT > Questions" }

/-- The fallback candidate for modelGIT. -/
def fbMatchGIT : MatchResult :=
  { path := ["General IT", "Questions"], confidence := 11/20,
    rationale := "Fallback to General IT > Questions", matched_keywords := [],
    matched_regexes := [] }

/-- A node carrying an always-matching regex but no matching keyword. -/
def regexOnlyNode : TaxonomyNode :=
  .mk "Cat" ["Cat"] ["zzzz"] ["zzzz"] [⟨"h", fun _ => true⟩] [] []

def modelRegexOnly : TaxonomyModel :=
  { nodes_by_path := [(["Cat"], regexOnlyNode)]
    priority_map := []
    alias_rules := []
    max_depth := 3 }

def vpnSubNode : TaxonomyNode :=
  .mk "Sub" ["Remote Access", "VPN (CATO)", "Sub"] [] [] [] [] []

/-- A VPN (CATO) node that is itself a parent (it has a child). -/
def vpnParentNode : TaxonomyNode :=
  .mk "VPN (CATO)" ["Remote Access", "VPN (CATO)"] [] [] [] [] [vpnSubNode]

def raRootNode : TaxonomyNode :=
  .mk "Remote Access" ["Remote Access"] [] [] [] [] [vpnParentNode]

/-- A taxonomy in which the proximity-rule target Remote Access > VPN (CATO)
has children. -/
def modelVpnParent : TaxonomyModel :=
  { nodes_by_path := [(["Remote Access"], raRootNode),
      (["Remote Access", "VPN (CATO)"], vpnParentNode),
      (["Remote Access", "VPN (CATO)", "Sub"], vpnSubNode)]
    priority_map := []
    alias_rules := []
    max_depth := 3 }

def softLeafNode : TaxonomyNode := .mk "Leaf" ["Soft", "Leaf"] [] [] [] [] []

def softRootNode : TaxonomyNode := .mk "Soft" ["Soft"] [] [] [] [] [softLeafNode]

def modelSoftLeaf : TaxonomyModel :=
  { nodes_by_path := [(["Soft"], softRootNode), (["Soft", "Leaf"], softLeafNode)]
    priority_map := []
    alias_rules := []
    max_depth := 3 }

/-- A configuration whose single alias entry points at a path absent from
the tree. -/
def cfgUnknownAliasTarget : TaxonomyConfig :=
  { tree := [.mk (some "A") [] [] [] []]
    aliases := [{ aliasValue := some "foo", target := some (.pathStr "B"),
                  legacy := false, note := none, regex := false }]
    priority_order := [] }

/-! ### Rounding and confidence-range infrastructure -/

lemma ratFloor_eq_intFloor (q : ℚ) : Rat.floor q = ⌊q⌋ :=
  le_antisymm (Int.le_floor.mpr (by exact_mod_cast Rat.le_floor.mp le_rfl))
    (Rat.le_floor.mpr (by exact_mod_cast Int.floor_le q))

lemma roundHalfEven_intCast (k : ℤ) : roundHalfEven (k : ℚ) = k := by
  unfold roundHalfEven
  rw [ratFloor_eq_intFloor, Int.floor_intCast]
  norm_num

lemma roundHalfEven_ge_floor (q : ℚ) : ⌊q⌋ ≤ roundHalfEven q := by
  unfold roundHalfEven
  rw [ratFloor_eq_intFloor]
  split_ifs <;> omega

lemma roundHalfEven_le_floor_add_one (q : ℚ) : roundHalfEven q ≤ ⌊q⌋ + 1 := by
  unfold roundHalfEven
  rw [ratFloor_eq_intFloor]
  split_ifs <;> omega

lemma round2_int_div (k : ℤ) : round2 ((k : ℚ)/100) = (k : ℚ)/100 := by
  unfold round2
  rw [show (100 : ℚ) * ((k : ℚ)/100) = (k : ℚ) by ring, roundHalfEven_intCast]

lemma round2_round2 (q : ℚ) : round2 (round2 q) = round2 q :=
  round2_int_div (roundHalfEven (100 * q))

lemma round2_bounds {q : ℚ} {ka kb : ℤ} (h1 : (ka : ℚ)/100 ≤ q) (h2 : q ≤ (kb : ℚ)/100) :
    (ka : ℚ)/100 ≤ round2 q ∧ round2 q ≤ (kb : ℚ)/100 := by
  have hka : ka ≤ ⌊100 * q⌋ := Int.le_floor.mpr (by linarith)
  have hkb : ⌊100 * q⌋ ≤ kb := by
    have : (⌊100 * q⌋ : ℚ) ≤ (kb : ℚ) := le_trans (Int.floor_le _) (by linarith)
    exact_mod_cast this
  constructor
  · have h := le_trans hka (roundHalfEven_ge_floor (100 * q))
    unfold round2
    rw [div_le_div_iff_of_pos_right (by norm_num : (0 : ℚ) < 100)]
    exact_mod_cast h
  · rcases lt_or_eq_of_le hkb with hlt | heq
    · have h := le_trans (roundHalfEven_le_floor_add_one (100 * q)) (by omega : ⌊100 * q⌋ + 1 ≤ kb)
      unfold round2
      rw [div_le_div_iff_of_pos_right (by norm_num : (0 : ℚ) < 100)]
      exact_mod_cast h
    · have hq : 100 * q = (kb : ℚ) := by
        have hl : (kb : ℚ) ≤ 100 * q := by rw [← heq]; exact Int.floor_le _
        have hu : 100 * q ≤ (kb : ℚ) := by linarith
        linarith
      unfold round2
      rw [hq, roundHalfEven_intCast]

/-- The confidence invariant of the engine: in the closed interval
[0.05, 0.95] and a fixed point of rounding to 2 decimals. -/
def confOK (q : ℚ) : Prop := 1/20 ≤ q ∧ q ≤ 19/20 ∧ round2 q = q

instance confOK_decidable : DecidablePred confOK := fun q => by
  unfold confOK
  infer_instance

lemma confOK_round2 {q : ℚ} (h1 : 1/20 ≤ q) (h2 : q ≤ 19/20) : confOK (round2 q) := by
  have h1' : ((5 : ℤ) : ℚ)/100 ≤ q := by push_cast; linarith
  have h2' : q ≤ ((95 : ℤ) : ℚ)/100 := by push_cast; linarith
  obtain ⟨l, u⟩ := round2_bounds h1' h2'
  push_cast at l u
  exact ⟨by linarith, by linarith, round2_round2 q⟩

lemma confOK_confidence (h d : ℕ) : confOK (confidence h d) := by
  unfold confidence
  have h0 : (0 : ℚ) ≤ (5 : ℚ)/100 * ((h - 1 : ℕ) : ℚ) := by positivity
  have hbonus : (0 : ℚ) ≤ min ((5 : ℚ)/100 * ((h - 1 : ℕ) : ℚ)) ((9 : ℚ)/100) :=
    le_min h0 (by norm_num)
  have hbase : (13 : ℚ)/20 ≤ (if 3 ≤ d then (9 : ℚ)/10 else if d = 2 then 4/5 else 13/20) := by
    split_ifs <;> norm_num
  apply confOK_round2
  · refine le_min ?_ (by norm_num)
    linarith
  · exact min_le_right _ _

lemma confidence_le_cap (h d : ℕ) : confidence h d ≤ 19/20 :=
  (confOK_confidence h d).2.1

/-! ### Association-list lemmas -/

lemma alistLookup_cons {α β : Type} [DecidableEq α] (e : α × β) (rest : List (α × β))
    (k : α) :
    alistLookup (e :: rest) k = if e.1 = k then some e.2 else alistLookup rest k := by
  rcases e with ⟨a, b⟩
  rfl

lemma lookup_map_update_self {α β : Type} [DecidableEq α] {m : List (α × β)} {k : α} {v : β}
    (h : m.any (fun e => e.1 = k) = true) :
    alistLookup (m.map (fun e => if e.1 = k then (e.1, v) else e)) k = some v := by
  induction m with
  | nil => simp at h
  | cons e rest ih =>
    by_cases hek : e.1 = k
    · rw [List.map_cons, if_pos hek, alistLookup_cons, if_pos hek]
    · rw [List.map_cons, if_neg hek, alistLookup_cons, if_neg hek]
      exact ih (by simpa [hek] using h)

lemma lookup_map_update_ne {α β : Type} [DecidableEq α] {m : List (α × β)} {k : α} {v : β}
    {k2 : α} (h : k ≠ k2) :
    alistLookup (m.map (fun e => if e.1 = k then (e.1, v) else e)) k2 = alistLookup m k2 := by
  induction m with
  | nil => rfl
  | cons e rest ih =>
    by_cases hek : e.1 = k
    · have hne : ¬(e.1 = k2) := by rw [hek]; exact h
      rw [List.map_cons, if_pos hek, alistLookup_cons, alistLookup_cons, if_neg hne,
        if_neg hne]
      exact ih
    · rw [List.map_cons, if_neg hek, alistLookup_cons, alistLookup_cons]
      by_cases he2 : e.1 = k2
      · rw [if_pos he2, if_pos he2]
      · rw [if_neg he2, if_neg he2]
        exact ih

lemma alistLookup_append {α β : Type} [DecidableEq α] (m1 m2 : List (α × β)) (k2 : α) :
    alistLookup (m1 ++ m2) k2 = (alistLookup m1 k2).or (alistLookup m2 k2) := by
  induction m1 with
  | nil => simp [alistLookup]
  | cons e rest ih =>
    rw [List.cons_append, alistLookup_cons, alistLookup_cons]
    by_cases he : e.1 = k2
    · rw [if_pos he, if_pos he]
      rfl
    · rw [if_neg he, if_neg he, ih]

lemma lookup_eq_none_of_not_any {α β : Type} [DecidableEq α] {m : List (α × β)} {k : α}
    (h : m.any (fun e => e.1 = k) = false) : alistLookup m k = none := by
  induction m with
  | nil => rfl
  | cons e rest ih =>
    simp only [List.any_cons, Bool.or_eq_false_iff] at h
    have he : ¬(e.1 = k) := by simpa using h.1
    rw [alistLookup_cons, if_neg he]
    exact ih h.2

lemma alistLookup_insert {α β : Type} [DecidableEq α] (m : List (α × β)) (k : α) (v : β)
    (k2 : α) :
    alistLookup (alistInsert m k v) k2 = if k = k2 then some v else alistLookup m k2 := by
  unfold alistInsert
  split
  · rename_i hany
    by_cases hk : k = k2
    · subst hk
      simp [lookup_map_update_self hany]
    · simp [hk, lookup_map_update_ne hk]
  · rename_i hany
    have hnone : alistLookup m k = none :=
      lookup_eq_none_of_not_any (Bool.eq_false_iff.mpr hany)
    rw [alistLookup_append]
    by_cases hk : k = k2
    · subst hk
      simp [hnone, alistLookup]
    · simp [alistLookup, hk, Ne.symm hk]

lemma alistLookup_modify_self {α β : Type} [DecidableEq α] (m : List (α × β)) (k : α)
    (f : β → β) : alistLookup (alistModify m k f) k = (alistLookup m k).map f := by
  unfold alistModify
  induction m with
  | nil => rfl
  | cons e rest ih =>
    by_cases he : e.1 = k
    · rw [List.map_cons, if_pos he, alistLookup_cons, alistLookup_cons, if_pos he, if_pos he]
      rfl
    · rw [List.map_cons, if_neg he, alistLookup_cons, alistLookup_cons, if_neg he, if_neg he]
      exact ih

lemma alistLookup_modify_ne {α β : Type} [DecidableEq α] (m : List (α × β)) (k : α)
    (f : β → β) (k2 : α) (h : k ≠ k2) :
    alistLookup (alistModify m k f) k2 = alistLookup m k2 := by
  unfold alistModify
  induction m with
  | nil => rfl
  | cons e rest ih =>
    by_cases hek : e.1 = k
    · have hne : ¬(e.1 = k2) := by rw [hek]; exact h
      rw [List.map_cons, if_pos hek, alistLookup_cons, alistLookup_cons, if_neg hne,
        if_neg hne]
      exact ih
    · rw [List.map_cons, if_neg hek, alistLookup_cons, alistLookup_cons]
      by_cases he2 : e.1 = k2
      · rw [if_pos he2, if_pos he2]
      · rw [if_neg he2, if_neg he2]
        exact ih

lemma alistInsert_mem {α β : Type} [DecidableEq α] {m : List (α × β)} {k : α} {v : β}
    {e : α × β} (he : e ∈ alistInsert m k v) : e ∈ m ∨ e.2 = v := by
  unfold alistInsert at he
  split at he
  · obtain ⟨x, hx, hfx⟩ := List.mem_map.mp he
    by_cases hxk : x.1 = k
    · right
      simp only [hxk, if_pos] at hfx
      rw [← hfx]
    · left
      simp only [hxk, if_neg, if_false] at hfx
      rwa [← hfx]
  · rcases List.mem_append.mp he with h1 | h2
    · exact Or.inl h1
    · right
      rw [List.mem_singleton.mp h2]

lemma alistModify_mem {α β : Type} [DecidableEq α] {m : List (α × β)} {k : α} {f : β → β}
    {e : α × β} (he : e ∈ alistModify m k f) : ∃ e0 ∈ m, e.2 = e0.2 ∨ e.2 = f e0.2 := by
  unfold alistModify at he
  obtain ⟨x, hx, hfx⟩ := List.mem_map.mp he
  refine ⟨x, hx, ?_⟩
  by_cases hxk : x.1 = k
  · simp only [hxk, if_pos] at hfx
    right
    rw [← hfx]
  · simp only [hxk, if_neg, if_false] at hfx
    left
    rw [← hfx]

lemma alistInsert_keys {α β : Type} [DecidableEq α] (m : List (α × β)) (k : α) (v : β)
    (hany : m.any (fun e => e.1 = k) = true) :
    (alistInsert m k v).map Prod.fst = m.map Prod.fst := by
  unfold alistInsert
  rw [if_pos hany, List.map_map]
  apply List.map_congr_left
  intro x _
  by_cases hxk : x.1 = k <;> simp [hxk]

lemma alistModify_keys {α β : Type} [DecidableEq α] (m : List (α × β)) (k : α) (f : β → β) :
    (alistModify m k f).map Prod.fst = m.map Prod.fst := by
  unfold alistModify
  rw [List.map_map]
  apply List.map_congr_left
  intro x _
  by_cases hxk : x.1 = k <;> simp [hxk]

lemma foldl_preserve_mem {α β : Type} {P : β → Prop} {f : β → α → β} {l : List α} {b : β}
    (hb : P b) (hstep : ∀ b2 a, a ∈ l → P b2 → P (f b2 a)) : P (l.foldl f b) := by
  induction l generalizing b with
  | nil => exact hb
  | cons x xs ih =>
    exact ih (hstep b x (by simp) hb) (fun b2 a ha hb2 => hstep b2 a (by simp [ha]) hb2)

/-! ### The confidence invariant across the signal stages -/

/-- Every candidate in the map carries a confidence in [0.05, 0.95] that is a
fixed point of 2-decimal rounding. -/
def mapConfOK (m : MatchMap) : Prop := ∀ e ∈ m, confOK e.2.confidence

instance mapConfOK_decidable : DecidablePred mapConfOK := fun m => by
  unfold mapConfOK
  infer_instance

lemma mapConfOK_matchTaxonomy (model : TaxonomyModel) (text : String)
    (tokenSet : List String) : mapConfOK (matchTaxonomy model text tokenSet) := by
  unfold matchTaxonomy
  apply foldl_preserve_mem (by intro e he; simp at he)
  intro acc node _ hacc e he
  unfold matchTaxonomyStep at he
  split at he
  · exact hacc e he
  · rcases alistInsert_mem he with h1 | h2
    · exact hacc e h1
    · rw [h2]
      exact confOK_confidence _ _

lemma applyProximityRule_cases (model : TaxonomyModel) (tokens : List String)
    (m : MatchMap) (rule : ProximityRule) :
    applyProximityRule model tokens m rule = m
    ∨ applyProximityRule model tokens m rule =
        alistModify m rule.path (fun r =>
          { r with confidence := round2 (min (r.confidence + rule.boost) (19/20))
                   rationale := r.rationale ++ "; " ++ rule.description })
    ∨ applyProximityRule model tokens m rule =
        alistInsert m rule.path
          { path := rule.path
            confidence := round2 (max (confidence 1 rule.path.length - 1/10) (1/2))
            rationale := "Matched " ++ joinPath rule.path ++ " via " ++ rule.description
            matched_keywords := []
            matched_regexes := []
            tfidf_score := 0 } := by
  unfold applyProximityRule
  split
  · exact Or.inl rfl
  split
  · exact Or.inl rfl
  split
  · exact Or.inl rfl
  split
  · exact Or.inl rfl
  · split
    · exact Or.inl rfl
    · split
      · exact Or.inr (Or.inl rfl)
      · exact Or.inr (Or.inr rfl)

lemma mapConfOK_applyProximityRule (model : TaxonomyModel) (tokens : List String)
    (m : MatchMap) (rule : ProximityRule) (hb : 0 ≤ rule.boost) (h : mapConfOK m) :
    mapConfOK (applyProximityRule model tokens m rule) := by
  rcases applyProximityRule_cases model tokens m rule with hc | hc | hc <;> rw [hc]
  · exact h
  · intro e he
    obtain ⟨e0, he0, hcase⟩ := alistModify_mem he
    rcases hcase with h1 | h2
    · rw [h1]; exact h e0 he0
    · rw [h2]
      obtain ⟨hl, hu, _⟩ := h e0 he0
      exact confOK_round2 (le_min (by linarith) (by norm_num)) (min_le_right _ _)
  · intro e he
    rcases alistInsert_mem he with h1 | h2
    · exact h e h1
    · rw [h2]
      have := confidence_le_cap 1 rule.path.length
      exact confOK_round2 (le_trans (by norm_num) (le_max_right _ _))
        (max_le (by linarith) (by norm_num))

lemma mapConfOK_applyProximityBoosts (model : TaxonomyModel) (m : MatchMap)
    (tokens : List String) (h : mapConfOK m) :
    mapConfOK (applyProximityBoosts model m tokens) := by
  unfold applyProximityBoosts
  split
  · exact h
  · apply foldl_preserve_mem h
    intro m2 rule hrule hm2
    apply mapConfOK_applyProximityRule _ _ _ _ _ hm2
    simp only [proximityRules, List.mem_cons, List.not_mem_nil, or_false] at hrule
    rcases hrule with rfl | rfl | rfl | rfl | rfl <;> norm_num

lemma fuzzyBoost_nonneg {score : ℚ} (h : FUZZY_SCORE_THRESHOLD ≤ score) :
    0 ≤ fuzzyBoost score := by
  unfold FUZZY_SCORE_THRESHOLD at h
  unfold fuzzyBoost FUZZY_MAX_BOOST
  have h0 : (0 : ℚ) ≤ score := by linarith
  exact le_min (by norm_num) (by positivity)

lemma applyFuzzyPath_cases (pr : String → String → ℚ) (model : TaxonomyModel)
    (tokenSet fuzzyTokens : List String) (m : MatchMap) (entry : List String × List String) :
    applyFuzzyPath pr model tokenSet fuzzyTokens m entry = m
    ∨ (∃ score bseed btok, FUZZY_SCORE_THRESHOLD ≤ score ∧
        applyFuzzyPath pr model tokenSet fuzzyTokens m entry =
          alistModify m entry.1 (fun r =>
            { r with confidence := round2 (min (r.confidence + fuzzyBoost score) (19/20))
                     rationale := r.rationale ++ "; " ++ fuzzyNote bseed btok score }))
    ∨ (∃ score bseed btok, FUZZY_SCORE_THRESHOLD ≤ score ∧
        applyFuzzyPath pr model tokenSet fuzzyTokens m entry =
          alistInsert m entry.1
            { path := entry.1
              confidence := round2 (min FUZZY_NEW_MATCH_CAP
                (FUZZY_NEW_MATCH_BASE + fuzzyBoost score))
              rationale := "Matched " ++ joinPath entry.1 ++ " via " ++
                fuzzyNote bseed btok score
              matched_keywords := []
              matched_regexes := []
              tfidf_score := 0 }) := by
  unfold applyFuzzyPath
  split
  · exact Or.inl rfl
  split
  · exact Or.inl rfl
  split
  · rename_i score bseed btok heq
    split
    · exact Or.inl rfl
    · rename_i hcond
      push_neg at hcond
      have hs : FUZZY_SCORE_THRESHOLD ≤ score := hcond.1
      split
      · exact Or.inr (Or.inl ⟨score, bseed, btok, hs, rfl⟩)
      · split
        · exact Or.inl rfl
        · exact Or.inr (Or.inr ⟨score, bseed, btok, hs, rfl⟩)
  · exact Or.inl rfl

lemma mapConfOK_applyFuzzyPath (pr : String → String → ℚ) (model : TaxonomyModel)
    (tokenSet fuzzyTokens : List String) (m : MatchMap) (entry : List String × List String)
    (h : mapConfOK m) : mapConfOK (applyFuzzyPath pr model tokenSet fuzzyTokens m entry) := by
  rcases applyFuzzyPath_cases pr model tokenSet fuzzyTokens m entry with
    hc | ⟨score, bseed, btok, hs, hc⟩ | ⟨score, bseed, btok, hs, hc⟩ <;> rw [hc]
  · exact h
  · intro e he
    obtain ⟨e0, he0, hcase⟩ := alistModify_mem he
    rcases hcase with h1 | h2
    · rw [h1]; exact h e0 he0
    · rw [h2]
      obtain ⟨hl, hu, _⟩ := h e0 he0
      have hbo := fuzzyBoost_nonneg hs
      exact confOK_round2 (le_min (by linarith) (by norm_num)) (min_le_right _ _)
  · intro e he
    rcases alistInsert_mem he with h1 | h2
    · exact h e h1
    · rw [h2]
      have hbo := fuzzyBoost_nonneg hs
      unfold FUZZY_NEW_MATCH_CAP FUZZY_NEW_MATCH_BASE
      exact confOK_round2 (le_min (by norm_num) (by linarith))
        (le_trans (min_le_left _ _) (by norm_num))

lemma mapConfOK_applyFuzzyMatches (pr : String → String → ℚ) (model : TaxonomyModel)
    (fuzzyTerms : List (List String × List String)) (m : MatchMap)
    (raw_tokens tokenSet : List String) (h : mapConfOK m) :
    mapConfOK (applyFuzzyMatches pr model fuzzyTerms m raw_tokens tokenSet) := by
  unfold applyFuzzyMatches
  split
  · exact h
  · exact foldl_preserve_mem h
      (fun m2 entry _ hm2 => mapConfOK_applyFuzzyPath pr model _ _ m2 entry hm2)

lemma applyTfidfItem_cases (model : TaxonomyModel) (thr w : ℚ) (m : MatchMap)
    (entry : List String × ℚ) :
    applyTfidfItem model thr w m entry = m
    ∨ (0 < entry.2 ∧ applyTfidfItem model thr w m entry =
        alistModify m entry.1 (fun r =>
          { r with tfidf_score := max r.tfidf_score entry.2
                   confidence := round2 (min (r.confidence + entry.2 * w) (19/20))
                   rationale :=
                     if strContains r.rationale "tf-idf" then
                       r.rationale ++ " (" ++ formatF2 entry.2 ++ ")"
                     else r.rationale ++ "; tf-idf " ++ formatF2 entry.2 }))
    ∨ (0 < entry.2 ∧ thr ≤ entry.2 ∧ applyTfidfItem model thr w m entry =
        alistInsert m entry.1
          { path := entry.1
            confidence := round2 (min (1/2 + entry.2 * w) (9/10))
            rationale := "Matched " ++ joinPath entry.1 ++ " via tf-idf similarity " ++
              formatF2 entry.2
            matched_keywords := []
            matched_regexes := []
            tfidf_score := entry.2 }) := by
  unfold applyTfidfItem
  split
  · exact Or.inl rfl
  rename_i hpos
  have hp : 0 < entry.2 := not_le.mp hpos
  split
  · exact Or.inl rfl
  split
  · exact Or.inr (Or.inl ⟨hp, rfl⟩)
  · split
    · exact Or.inl rfl
    split
    · exact Or.inl rfl
    · rename_i hthr
      exact Or.inr (Or.inr ⟨hp, not_lt.mp hthr, rfl⟩)

lemma mapConfOK_applyTfidfItem (model : TaxonomyModel) (thr w : ℚ) (m : MatchMap)
    (entry : List String × ℚ) (hw : 0 ≤ w) (h : mapConfOK m) :
    mapConfOK (applyTfidfItem model thr w m entry) := by
  rcases applyTfidfItem_cases model thr w m entry with hc | ⟨hp, hc⟩ | ⟨hp, _, hc⟩ <;> rw [hc]
  · exact h
  · intro e he
    obtain ⟨e0, he0, hcase⟩ := alistModify_mem he
    rcases hcase with h1 | h2
    · rw [h1]; exact h e0 he0
    · rw [h2]
      obtain ⟨hl, hu, _⟩ := h e0 he0
      have hsw : 0 ≤ entry.2 * w := mul_nonneg (le_of_lt hp) hw
      exact confOK_round2 (le_min (by linarith) (by norm_num)) (min_le_right _ _)
  · intro e he
    rcases alistInsert_mem he with h1 | h2
    · exact h e h1
    · rw [h2]
      have hsw : 0 ≤ entry.2 * w := mul_nonneg (le_of_lt hp) hw
      exact confOK_round2 (le_min (by linarith) (by norm_num))
        (le_trans (min_le_right _ _) (by norm_num))

lemma mapConfOK_applyTfidfScores (model : TaxonomyModel) (thr w : ℚ) (m : MatchMap)
    (scores : List (List String × ℚ)) (hw : 0 ≤ w) (h : mapConfOK m) :
    mapConfOK (applyTfidfScores model thr w m scores) := by
  unfold applyTfidfScores
  split
  · exact h
  · exact foldl_preserve_mem h
      (fun m2 entry _ hm2 => mapConfOK_applyTfidfItem model thr w m2 entry hw hm2)

lemma mapConfOK_applyCitrixGuard (model : TaxonomyModel) (tokenSet : List String)
    (m : MatchMap) (h : mapConfOK m) : mapConfOK (applyCitrixGuard model tokenSet m) := by
  unfold applyCitrixGuard
  split
  · intro e he
    obtain ⟨e0, he0, hcase⟩ := alistModify_mem he
    rcases hcase with h1 | h2
    · rw [h1]; exact h e0 he0
    · rw [h2]
      obtain ⟨hl, hu, _⟩ := h e0 he0
      exact confOK_round2 (le_max_right _ _) (max_le (by linarith) (by norm_num))
  · exact h

lemma mapConfOK_applyNotVpnGuard (model : TaxonomyModel) (textLower : String)
    (m : MatchMap) (h : mapConfOK m) : mapConfOK (applyNotVpnGuard model textLower m) := by
  unfold applyNotVpnGuard
  split
  · intro e he
    obtain ⟨e0, he0, hfe⟩ := List.mem_map.mp he
    obtain ⟨hl, hu, _⟩ := h e0 he0
    split at hfe <;> rw [← hfe]
    · exact confOK_round2 (le_max_right _ _) (max_le (by linarith) (by norm_num))
    · exact h e0 he0
  · exact h

lemma mapConfOK_applyTeamsGuard (model : TaxonomyModel) (textLower : String)
    (m : MatchMap) (h : mapConfOK m) : mapConfOK (applyTeamsGuard model textLower m) := by
  unfold applyTeamsGuard
  split
  · intro e he
    obtain ⟨e0, he0, hfe⟩ := List.mem_map.mp he
    obtain ⟨hl, hu, _⟩ := h e0 he0
    split at hfe <;> rw [← hfe]
    · exact confOK_round2 (le_max_right _ _) (max_le (by linarith) (by norm_num))
    · exact h e0 he0
  · exact h

lemma mapConfOK_applyNegativeKeywords (model : TaxonomyModel) (m : MatchMap)
    (tokens : List String) (textLower : String) (h : mapConfOK m) :
    mapConfOK (applyNegativeKeywords model m tokens textLower) := by
  unfold applyNegativeKeywords
  split
  · exact h
  · exact mapConfOK_applyTeamsGuard _ _ _
      (mapConfOK_applyNotVpnGuard _ _ _ (mapConfOK_applyCitrixGuard _ _ _ h))

lemma confOK_fallbackMatch (model : TaxonomyModel) (r : MatchResult)
    (h : fallbackMatch model = some r) : confOK r.confidence := by
  unfold fallbackMatch at h
  split at h
  · exact Option.noConfusion h
  · rename_i tp _
    have hr := (Option.some.injEq _ _).mp h
    have hconf : r.confidence = fallbackConfidence tp := by rw [← hr]
    rw [hconf]
    unfold fallbackConfidence
    split_ifs <;> decide

lemma mapConfOK_candidateMap (pr : String → String → ℚ) (an : TicketAnalyzer)
    (combined : String) (tfidfMap : List (List String × ℚ)) (hw : 0 ≤ an.tfidf_weight) :
    mapConfOK (candidateMap pr an combined tfidfMap) := by
  unfold candidateMap
  exact mapConfOK_applyNegativeKeywords _ _ _ _
    (mapConfOK_applyTfidfScores _ _ _ _ _ hw
      (mapConfOK_applyFuzzyMatches _ _ _ _ _ _
        (mapConfOK_applyProximityBoosts _ _ _
          (mapConfOK_matchTaxonomy _ _ _))))

/-! ### Depth bounds on candidate paths -/

lemma alistLookup_mem {α β : Type} [DecidableEq α] {m : List (α × β)} {k : α} {v : β}
    (h : alistLookup m k = some v) : (k, v) ∈ m := by
  induction m with
  | nil => exact Option.noConfusion h
  | cons e rest ih =>
    obtain ⟨a, b⟩ := e
    rw [alistLookup_cons] at h
    split at h
    · rename_i ha
      dsimp at ha
      subst ha
      dsimp at h
      cases (Option.some.injEq _ _).mp h
      exact List.mem_cons_self _ _
    · exact List.mem_cons_of_mem _ (ih h)

/-- Every candidate path in the map has depth between 1 and 3. -/
def mapDepthOK (m : MatchMap) : Prop :=
  ∀ e ∈ m, 1 ≤ e.2.path.length ∧ e.2.path.length ≤ 3

/-- The data-model depth invariant of a taxonomy: every node reachable by
the tree walk and every key of the path index has depth between 1 and 3. -/
def modelDepthOK (model : TaxonomyModel) : Prop :=
  (∀ n ∈ model.iter_nodes, 1 ≤ n.path.length ∧ n.path.length ≤ 3) ∧
  (∀ e ∈ model.nodes_by_path, 1 ≤ e.1.length ∧ e.1.length ≤ 3)

instance modelDepthOK_decidable : DecidablePred modelDepthOK := fun model => by
  unfold modelDepthOK
  infer_instance

lemma mapDepthOK_matchTaxonomy (model : TaxonomyModel) (text : String)
    (tokenSet : List String)
    (hm : ∀ n ∈ model.iter_nodes, 1 ≤ n.path.length ∧ n.path.length ≤ 3) :
    mapDepthOK (matchTaxonomy model text tokenSet) := by
  unfold matchTaxonomy
  apply foldl_preserve_mem (by intro e he; simp at he)
  intro acc node hnode hacc e he
  unfold matchTaxonomyStep at he
  split at he
  · exact hacc e he
  · rcases alistInsert_mem he with h1 | h2
    · exact hacc e h1
    · rw [h2]
      exact hm node hnode

lemma mapDepthOK_applyProximityRule (model : TaxonomyModel) (tokens : List String)
    (m : MatchMap) (rule : ProximityRule)
    (hr : 1 ≤ rule.path.length ∧ rule.path.length ≤ 3) (h : mapDepthOK m) :
    mapDepthOK (applyProximityRule model tokens m rule) := by
  rcases applyProximityRule_cases model tokens m rule with hc | hc | hc <;> rw [hc]
  · exact h
  · intro e he
    obtain ⟨e0, he0, hcase⟩ := alistModify_mem he
    rcases hcase with h1 | h2
    · rw [h1]; exact h e0 he0
    · rw [h2]; exact h e0 he0
  · intro e he
    rcases alistInsert_mem he with h1 | h2
    · exact h e h1
    · rw [h2]; exact hr

lemma mapDepthOK_applyProximityBoosts (model : TaxonomyModel) (m : MatchMap)
    (tokens : List String) (h : mapDepthOK m) :
    mapDepthOK (applyProximityBoosts model m tokens) := by
  unfold applyProximityBoosts
  split
  · exact h
  · apply foldl_preserve_mem h
    intro m2 rule hrule hm2
    apply mapDepthOK_applyProximityRule _ _ _ _ _ hm2
    simp only [proximityRules, List.mem_cons, List.not_mem_nil, or_false] at hrule
    rcases hrule with rfl | rfl | rfl | rfl | rfl <;> exact ⟨by norm_num, by norm_num⟩

lemma mapDepthOK_applyFuzzyPath (pr : String → String → ℚ) (model : TaxonomyModel)
    (tokenSet fuzzyTokens : List String) (m : MatchMap) (entry : List String × List String)
    (hkeys : ∀ e ∈ model.nodes_by_path, 1 ≤ e.1.length ∧ e.1.length ≤ 3)
    (h : mapDepthOK m) : mapDepthOK (applyFuzzyPath pr model tokenSet fuzzyTokens m entry) := by
  unfold applyFuzzyPath
  split
  · exact h
  split
  · exact h
  · rename_i node heq
    split
    · split
      · exact h
      · split
        · intro e he
          obtain ⟨e0, he0, hcase⟩ := alistModify_mem he
          rcases hcase with h1 | h2
          · rw [h1]; exact h e0 he0
          · rw [h2]; exact h e0 he0
        · split
          · exact h
          · intro e he
            rcases alistInsert_mem he with h1 | h2
            · exact h e h1
            · rw [h2]
              exact hkeys _ (alistLookup_mem heq)
    · exact h

lemma mapDepthOK_applyFuzzyMatches (pr : String → String → ℚ) (model : TaxonomyModel)
    (fuzzyTerms : List (List String × List String)) (m : MatchMap)
    (raw_tokens tokenSet : List String)
    (hkeys : ∀ e ∈ model.nodes_by_path, 1 ≤ e.1.length ∧ e.1.length ≤ 3)
    (h : mapDepthOK m) :
    mapDepthOK (applyFuzzyMatches pr model fuzzyTerms m raw_tokens tokenSet) := by
  unfold applyFuzzyMatches
  split
  · exact h
  · exact foldl_preserve_mem h
      (fun m2 entry _ hm2 => mapDepthOK_applyFuzzyPath pr model _ _ m2 entry hkeys hm2)

lemma mapDepthOK_applyTfidfItem (model : TaxonomyModel) (thr w : ℚ) (m : MatchMap)
    (entry : List String × ℚ)
    (hkeys : ∀ e ∈ model.nodes_by_path, 1 ≤ e.1.length ∧ e.1.length ≤ 3)
    (h : mapDepthOK m) : mapDepthOK (applyTfidfItem model thr w m entry) := by
  unfold applyTfidfItem
  split
  · exact h
  split
  · exact h
  · rename_i node heq
    split
    · intro e he
      obtain ⟨e0, he0, hcase⟩ := alistModify_mem he
      rcases hcase with h1 | h2
      · rw [h1]; exact h e0 he0
      · rw [h2]; exact h e0 he0
    · split
      · exact h
      split
      · exact h
      · intro e he
        rcases alistInsert_mem he with h1 | h2
        · exact h e h1
        · rw [h2]
          exact hkeys _ (alistLookup_mem heq)

lemma mapDepthOK_applyTfidfScores (model : TaxonomyModel) (thr w : ℚ) (m : MatchMap)
    (scores : List (List String × ℚ))
    (hkeys : ∀ e ∈ model.nodes_by_path, 1 ≤ e.1.length ∧ e.1.length ≤ 3)
    (h : mapDepthOK m) : mapDepthOK (applyTfidfScores model thr w m scores) := by
  unfold applyTfidfScores
  split
  · exact h
  · exact foldl_preserve_mem h
      (fun m2 entry _ hm2 => mapDepthOK_applyTfidfItem model thr w m2 entry hkeys hm2)

lemma mapDepthOK_applyNegativeKeywords (model : TaxonomyModel) (m : MatchMap)
    (tokens : List String) (textLower : String) (h : mapDepthOK m) :
    mapDepthOK (applyNegativeKeywords model m tokens textLower) := by
  unfold applyNegativeKeywords
  split
  · exact h
  have h1 : mapDepthOK (applyCitrixGuard model tokens m) := by
    unfold applyCitrixGuard
    split
    · intro e he
      obtain ⟨e0, he0, hcase⟩ := alistModify_mem he
      rcases hcase with hx | hx <;> rw [hx] <;> exact h e0 he0
    · exact h
  have h2 : mapDepthOK (applyNotVpnGuard model textLower (applyCitrixGuard model tokens m)) := by
    unfold applyNotVpnGuard
    split
    · intro e he
      obtain ⟨e0, he0, hfe⟩ := List.mem_map.mp he
      split at hfe <;> rw [← hfe]
      · exact h1 e0 he0
      · exact h1 e0 he0
    · exact h1
  unfold applyTeamsGuard
  split
  · intro e he
    obtain ⟨e0, he0, hfe⟩ := List.mem_map.mp he
    split at hfe <;> rw [← hfe]
    · exact h2 e0 he0
    · exact h2 e0 he0
  · exact h2

lemma mapDepthOK_candidateMap (pr : String → String → ℚ) (an : TicketAnalyzer)
    (combined : String) (tfidfMap : List (List String × ℚ))
    (hmd : modelDepthOK an.taxonomy) : mapDepthOK (candidateMap pr an combined tfidfMap) := by
  unfold candidateMap
  exact mapDepthOK_applyNegativeKeywords _ _ _ _
    (mapDepthOK_applyTfidfScores _ _ _ _ _ hmd.2
      (mapDepthOK_applyFuzzyMatches _ _ _ _ _ _ hmd.2
        (mapDepthOK_applyProximityBoosts _ _ _
          (mapDepthOK_matchTaxonomy _ _ _ hmd.1))))

/-! ### Sortedness of the ranked candidate list -/

lemma sorted_sortedMatches (model : TaxonomyModel) (m : MatchMap) :
    List.Sorted (sortKeyLe model) (sortedMatches model m) := by
  unfold sortedMatches
  haveI : IsTotal MatchResult (sortKeyLe model) :=
    ⟨fun a b => le_total (sortKey model a) (sortKey model b)⟩
  haveI : IsTrans MatchResult (sortKeyLe model) :=
    ⟨fun _ _ _ hab hbc => le_trans hab hbc⟩
  exact List.sorted_insertionSort _ _

lemma mem_sortedMatches {model : TaxonomyModel} {m : MatchMap} {r : MatchResult} :
    r ∈ sortedMatches model m ↔ r ∈ m.map Prod.snd :=
  (List.perm_insertionSort _ _).mem_iff

lemma sortedMatches_nil_of_primaryScan_none {model : TaxonomyModel} {m : MatchMap}
    (hdep : mapDepthOK m) (h : primaryScan (sortedMatches model m) = none) :
    sortedMatches model m = [] := by
  rcases List.eq_nil_or_concat (sortedMatches model m) with hnil | ⟨l2, r, hcons⟩
  · exact hnil
  · exfalso
    have hr : r ∈ sortedMatches model m := by rw [hcons]; simp
    obtain ⟨e, he, hre⟩ := List.mem_map.mp (mem_sortedMatches.mp hr)
    have hb := hdep e he
    rw [hre] at hb
    have hf3 : (sortedMatches model m).find? (fun r => r.path.length == 3) = none := by
      cases hx : (sortedMatches model m).find? (fun r => r.path.length == 3) with
      | none => rfl
      | some r0 =>
        exfalso
        unfold primaryScan at h
        rw [hx] at h
        exact Option.noConfusion h
    have hf2 : (sortedMatches model m).find? (fun r => r.path.length == 2) = none := by
      cases hx : (sortedMatches model m).find? (fun r => r.path.length == 2) with
      | none => rfl
      | some r0 =>
        exfalso
        unfold primaryScan at h
        rw [hf3, hx] at h
        exact Option.noConfusion h
    have hf1 : (sortedMatches model m).find? (fun r => r.path.length == 1) = none := by
      unfold primaryScan at h
      rw [hf3, hf2] at h
      exact h
    have f3 := List.find?_eq_none.mp hf3 r hr
    have f2 := List.find?_eq_none.mp hf2 r hr
    have f1 := List.find?_eq_none.mp hf1 r hr
    simp only [beq_iff_eq] at f3 f2 f1
    omega

lemma sorted_orderedMatches (model : TaxonomyModel) (m : MatchMap) (hdep : mapDepthOK m) :
    List.Sorted (sortKeyLe model) (orderedMatches model m) := by
  unfold orderedMatches
  split
  · exact sorted_sortedMatches model m
  · rename_i hnone
    rw [sortedMatches_nil_of_primaryScan_none hdep hnone]
    cases hfb : fallbackMatch model with
    | none => exact List.sorted_nil
    | some fb => exact List.sorted_singleton _

lemma mem_orderedMatches {model : TaxonomyModel} {m : MatchMap} {r : MatchResult}
    (h : r ∈ orderedMatches model m) :
    r ∈ m.map Prod.snd ∨ fallbackMatch model = some r := by
  unfold orderedMatches at h
  split at h
  · exact Or.inl (mem_sortedMatches.mp h)
  · split at h
    · rename_i fb hfb
      rcases List.mem_cons.mp h with h1 | h2
      · rw [← h1] at hfb
        exact Or.inr hfb
      · exact Or.inl (mem_sortedMatches.mp h2)
    · exact Or.inl (mem_sortedMatches.mp h)

/-! ### Reading the suggestion dictionary -/

lemma alistLookup_foldl_insert_proj {α β γ : Type} [DecidableEq α] (rs : List γ)
    (kf : γ → α) (vf : γ → β) (init : List (α × β)) (k : α) (v : β)
    (h : alistLookup (rs.foldl (fun acc e => alistInsert acc (kf e) (vf e)) init) k = some v) :
    (∃ e ∈ rs, v = vf e) ∨ alistLookup init k = some v := by
  induction rs generalizing init with
  | nil => exact Or.inr h
  | cons e rest ih =>
    rcases ih _ h with h1 | h2
    · obtain ⟨e2, he2, hv⟩ := h1
      exact Or.inl ⟨e2, List.mem_cons_of_mem _ he2, hv⟩
    · rw [alistLookup_insert] at h2
      split at h2
      · exact Or.inl ⟨e, List.mem_cons_self _ _, ((Option.some.injEq _ _).mp h2).symm⟩
      · exact Or.inr h2

lemma suggestOne_fst (pr : String → String → ℚ) (an : TicketAnalyzer) (t : TicketRecord)
    (tfidfMap : List (List String × ℚ)) :
    (suggestOne pr an t tfidfMap).1 = suggestionListFor pr an (combinedText t) tfidfMap := by
  unfold suggestOne
  split
  · rename_i heq1 heq2
    exact heq2.symm
  · rfl

lemma suggestCategories_fst_lookup (pr : String → String → ℚ) (logQ sqrtQ : ℚ → ℚ)
    (an : TicketAnalyzer) (tickets : List TicketRecord) (id : ℤ)
    (sl : List SuggestedCategory)
    (h : alistLookup (suggestCategories pr logQ sqrtQ an tickets).1 id = some sl) :
    ∃ e ∈ ticketScorePairs logQ sqrtQ an tickets,
      sl = suggestionListFor pr an (combinedText e.1) e.2 := by
  unfold suggestCategories at h
  dsimp only at h
  rcases alistLookup_foldl_insert_proj
      ((ticketScorePairs logQ sqrtQ an tickets).map
        (fun e => (e.1.id, suggestOne pr an e.1 e.2)))
      (fun e => e.1) (fun e => e.2.1) [] id sl h with h1 | h2
  · obtain ⟨e2, he2, hv⟩ := h1
    obtain ⟨p, hp, hpe⟩ := List.mem_map.mp he2
    refine ⟨p, hp, ?_⟩
    rw [hv, ← hpe]
    exact suggestOne_fst pr an p.1 p.2
  · exact Option.noConfusion h2

/-! ### Claim C6 -/

/-- C6: for every batch, ticket, signal stage and the final merged score,
every confidence value produced by the engine lies in [0.05, 0.95] and is a
fixed point of rounding to 2 decimal places: the keyword matcher only emits
such confidences, every signal stage (proximity, fuzzy, tf-idf, negative
keywords) preserves the property, the fallback candidate satisfies it, and
every confidence in any suggestion list returned by suggest_categories
satisfies it. -/
theorem C6_confidence_invariant :
    (∀ (model : TaxonomyModel) (text : String) (tokenSet : List String),
      mapConfOK (matchTaxonomy model text tokenSet))
    ∧ (∀ (model : TaxonomyModel) (m : MatchMap) (tokens : List String),
        mapConfOK m → mapConfOK (applyProximityBoosts model m tokens))
    ∧ (∀ (pr : String → String → ℚ) (model : TaxonomyModel)
        (fuzzyTerms : List (List String × List String)) (m : MatchMap)
        (raw_tokens tokenSet : List String),
        mapConfOK m → mapConfOK (applyFuzzyMatches pr model fuzzyTerms m raw_tokens tokenSet))
    ∧ (∀ (model : TaxonomyModel) (thr w : ℚ) (m : MatchMap)
        (scores : List (List String × ℚ)),
        0 ≤ w → mapConfOK m → mapConfOK (applyTfidfScores model thr w m scores))
    ∧ (∀ (model : TaxonomyModel) (m : MatchMap) (tokens : List String) (textLower : String),
        mapConfOK m → mapConfOK (applyNegativeKeywords model m tokens textLower))
    ∧ (∀ (model : TaxonomyModel) (r : MatchResult),
        fallbackMatch model = some r → confOK r.confidence)
    ∧ (∀ (pr : String → String → ℚ) (logQ sqrtQ : ℚ → ℚ) (taxonomy : TaxonomyModel)
        (kml mkf msug : ℕ) (sw : List String) (thr w : ℚ) (tickets : List TicketRecord)
        (id : ℤ) (sl : List SuggestedCategory) (s : SuggestedCategory),
        alistLookup (suggestCategories pr logQ sqrtQ
          (mkAnalyzer taxonomy kml mkf msug sw thr w) tickets).1 id = some sl →
        s ∈ sl → confOK s.confidence) := by
  refine ⟨mapConfOK_matchTaxonomy, mapConfOK_applyProximityBoosts,
    mapConfOK_applyFuzzyMatches,
    fun model thr w m scores hw h => mapConfOK_applyTfidfScores model thr w m scores hw h,
    mapConfOK_applyNegativeKeywords, confOK_fallbackMatch, ?_⟩
  intro pr logQ sqrtQ taxonomy kml mkf msug sw thr w tickets id sl s hlook hs
  obtain ⟨e, _, hsl⟩ := suggestCategories_fst_lookup pr logQ sqrtQ _ tickets id sl hlook
  rw [hsl] at hs
  unfold suggestionListFor at hs
  obtain ⟨r, hr, hrs⟩ := List.mem_map.mp hs
  have hrm := List.mem_of_mem_take hr
  have hconf : confOK r.confidence := by
    rcases mem_orderedMatches hrm with h1 | h2
    · obtain ⟨e2, he2, hre⟩ := List.mem_map.mp h1
      have hc := mapConfOK_candidateMap pr (mkAnalyzer taxonomy kml mkf msug sw thr w)
        (combinedText e.1) e.2 (le_max_left 0 w) e2 he2
      rwa [hre] at hc
    · exact confOK_fallbackMatch _ _ h2
  rw [← hrs]
  unfold toSuggested
  rw [show (round2 r.confidence) = r.confidence from hconf.2.2] at *
  exact hconf

/-- Closed instance of C6_confidence_invariant at concrete inputs,
discharging each hypothesis by evaluation. -/
theorem C6_confidence_invariant_witness :
    mapConfOK (matchTaxonomy modelGIT "zzz" ["zzz"])
    ∧ mapConfOK (applyProximityBoosts modelGIT [] ["vpn", "cannot"])
    ∧ mapConfOK (applyFuzzyMatches zeroPr modelGIT [] [] ["zzz"] ["zzz"])
    ∧ mapConfOK (applyTfidfScores modelGIT (1/20) (7/20) [] [(["General IT"], 1/2)])
    ∧ mapConfOK (applyNegativeKeywords modelGIT [] ["zzz"] "zzz")
    ∧ confOK fbMatchGIT.confidence
    ∧ confOK fbSuggestionGIT.confidence :=
  ⟨C6_confidence_invariant.1 modelGIT "zzz" ["zzz"],
   C6_confidence_invariant.2.1 modelGIT [] ["vpn", "cannot"] (by decide),
   C6_confidence_invariant.2.2.1 zeroPr modelGIT [] [] ["zzz"] ["zzz"] (by decide),
   C6_confidence_invariant.2.2.2.1 modelGIT (1/20) (7/20) [] [(["General IT"], 1/2)]
     (by norm_num) (by decide),
   C6_confidence_invariant.2.2.2.2.1 modelGIT [] ["zzz"] "zzz" (by decide),
   C6_confidence_invariant.2.2.2.2.2.1 modelGIT fbMatchGIT (by decide),
   C6_confidence_invariant.2.2.2.2.2.2 zeroPr zeroFn zeroFn modelGIT 4 3 3 [] (5/100)
     (35/100) [ticketMisc] 400 [fbSuggestionGIT] fbSuggestionGIT (by decide) (by decide)⟩

/-! ### Claim C7 -/

/-- C7: for every batch and every ticket, under the data-model invariant
that taxonomy paths have depth 1 to 3, the suggestion list returned by
suggest_categories for that ticket has length at most the configured
maximum, and it is the image under the suggestion conversion of the first
max_suggestions_per_ticket elements of a candidate list that is sorted
nondecreasingly by the 4-part key (priority rank from priority_override or
the priority map with default size+1, negated depth, negated confidence,
path). -/
theorem C7_suggestions_sorted_bounded (pr : String → String → ℚ) (logQ sqrtQ : ℚ → ℚ)
    (taxonomy : TaxonomyModel) (kml mkf msug : ℕ) (sw : List String) (thr w : ℚ)
    (tickets : List TicketRecord) (hmd : modelDepthOK taxonomy) :
    ∀ (id : ℤ) (sl : List SuggestedCategory),
      alistLookup (suggestCategories pr logQ sqrtQ
        (mkAnalyzer taxonomy kml mkf msug sw thr w) tickets).1 id = some sl →
      sl.length ≤ (mkAnalyzer taxonomy kml mkf msug sw thr w).max_suggestions_per_ticket
      ∧ ∃ m : MatchMap,
          List.Sorted (sortKeyLe taxonomy) (orderedMatches taxonomy m)
          ∧ sl = ((orderedMatches taxonomy m).take
              (mkAnalyzer taxonomy kml mkf msug sw thr w).max_suggestions_per_ticket).map
                toSuggested := by
  intro id sl h
  obtain ⟨e, _, hsl⟩ := suggestCategories_fst_lookup pr logQ sqrtQ _ tickets id sl h
  constructor
  · rw [hsl]
    unfold suggestionListFor
    rw [List.length_map]
    exact List.length_take_le _ _
  · refine ⟨candidateMap pr (mkAnalyzer taxonomy kml mkf msug sw thr w)
      (combinedText e.1) e.2, ?_, ?_⟩
    · exact sorted_orderedMatches _ _
        (mapDepthOK_candidateMap pr _ (combinedText e.1) e.2 hmd)
    · rw [hsl]
      rfl

/-- Closed instance of C7_suggestions_sorted_bounded at concrete inputs,
discharging each hypothesis by evaluation. -/
theorem C7_suggestions_sorted_bounded_witness :
    [fbSuggestionGIT].length ≤
      (mkAnalyzer modelGIT 4 3 3 [] (5/100) (35/100)).max_suggestions_per_ticket
    ∧ ∃ m : MatchMap,
        List.Sorted (sortKeyLe modelGIT) (orderedMatches modelGIT m)
        ∧ [fbSuggestionGIT] = ((orderedMatches modelGIT m).take
            (mkAnalyzer modelGIT 4 3 3 [] (5/100) (35/100)).max_suggestions_per_ticket).map
              toSuggested :=
  C7_suggestions_sorted_bounded zeroPr zeroFn zeroFn modelGIT 4 3 3 [] (5/100) (35/100)
    [ticketMisc] (by decide) 400 [fbSuggestionGIT] (by decide)

/-! ### Claim C1 -/

/-- C1 (counterexample): on a ticket with no matching signal against a
taxonomy containing General IT > Questions, suggest_categories emits that
path as the top (and only) suggestion, but with confidence 0.55, not 0.6 as
claimed: the fallback confidence table assigns 0.55 to the depth-2 target. -/
theorem C1_fallback_counterexample :
    alistLookup (suggestCategories zeroPr zeroFn zeroFn anGIT [ticketMisc]).1 400 =
      some [fbSuggestionGIT]
    ∧ ¬(fbSuggestionGIT.confidence = 6/10) := by
  decide

lemma take_two_of_get? {p : List String} (h0 : p.get? 0 = some "General IT")
    (h1 : p.get? 1 = some "Questions") : p.take 2 = ["General IT", "Questions"] := by
  match p, h0, h1 with
  | x :: y :: rest, h0, h1 =>
    simp only [List.get?] at h0 h1
    rw [(Option.some.injEq _ _).mp h0, (Option.some.injEq _ _).mp h1]
    rfl

/-- C1 (amended): for every ticket whose per-ticket candidate map is empty
after all signals, when the taxonomy contains a path starting with
General IT > Questions, suggest_categories gives that ticket exactly the
path General IT > Questions as its only suggestion, with confidence 0.55
(the depth-2 fallback confidence), not 0.6. -/
theorem C1_fallback_amended (pr : String → String → ℚ) (taxonomy : TaxonomyModel)
    (kml mkf msug : ℕ) (sw : List String) (thr w : ℚ) (combined : String)
    (tfidfMap : List (List String × ℚ))
    (hempty : candidateMap pr (mkAnalyzer taxonomy kml mkf msug sw thr w) combined
      tfidfMap = [])
    (hpath : ∃ p ∈ taxonomy.nodes_by_path.map Prod.fst,
        2 ≤ p.length ∧ p.get? 0 = some "General IT" ∧ p.get? 1 = some "Questions") :
    suggestionListFor pr (mkAnalyzer taxonomy kml mkf msug sw thr w) combined tfidfMap =
      [{ category := some "General IT", sub_category := some "Questions",
         item_category := none, confidence := 11/20,
         rationale := "Fallback to General IT > Questions" }] := by
  have hfind : ∃ p0, (taxonomy.nodes_by_path.map Prod.fst).find? (fun p =>
      2 ≤ p.length && p.get? 0 == some "General IT" && p.get? 1 == some "Questions") =
        some p0 := by
    obtain ⟨p, hp, h2, hg0, hg1⟩ := hpath
    have : ((taxonomy.nodes_by_path.map Prod.fst).find? (fun p =>
        2 ≤ p.length && p.get? 0 == some "General IT" &&
          p.get? 1 == some "Questions")).isSome := by
      rw [List.find?_isSome]
      refine ⟨p, hp, ?_⟩
      rw [List.get?_eq_getElem?] at hg0 hg1
      simp [h2, hg0, hg1]
    exact Option.isSome_iff_exists.mp this
  obtain ⟨p0, hp0⟩ := hfind
  have hpred := List.find?_some hp0
  simp only [Bool.and_eq_true, decide_eq_true_eq, beq_iff_eq] at hpred
  have htake : p0.take 2 = ["General IT", "Questions"] :=
    take_two_of_get? hpred.1.2 hpred.2
  have htarget : fallbackTarget taxonomy = some ["General IT", "Questions"] := by
    unfold fallbackTarget
    rw [hp0]
    simp [htake]
  have hfb : fallbackMatch taxonomy = some fbMatchGIT := by
    unfold fallbackMatch
    rw [htarget]
    rfl
  have hsorted : sortedMatches taxonomy (candidateMap pr
      (mkAnalyzer taxonomy kml mkf msug sw thr w) combined tfidfMap) = [] := by
    rw [hempty]
    rfl
  have hord : orderedMatches taxonomy (candidateMap pr
      (mkAnalyzer taxonomy kml mkf msug sw thr w) combined tfidfMap) = [fbMatchGIT] := by
    unfold orderedMatches
    rw [hsorted]
    unfold primaryScan
    simp only [List.find?_nil]
    rw [hfb]
  unfold suggestionListFor
  rw [show (mkAnalyzer taxonomy kml mkf msug sw thr w).taxonomy = taxonomy from rfl]
  rw [hord]
  rw [show (mkAnalyzer taxonomy kml mkf msug sw thr w).max_suggestions_per_ticket =
    max 1 msug from rfl]
  rw [List.take_of_length_le (by
    have h1 : 1 ≤ max 1 msug := le_max_left 1 msug
    simp only [List.length_cons, List.length_nil]
    exact h1)]
  decide

/-- Closed instance of C1_fallback_amended at concrete inputs, discharging
each hypothesis by evaluation. -/
theorem C1_fallback_amended_witness :
    candidateMap zeroPr (mkAnalyzer modelGIT 4 3 3 [] (5/100) (35/100))
      (combinedText ticketMisc) [] = []
    ∧ suggestionListFor zeroPr (mkAnalyzer modelGIT 4 3 3 [] (5/100) (35/100))
        (combinedText ticketMisc) [] =
      [{ category := some "General IT", sub_category := some "Questions",
         item_category := none, confidence := 11/20,
         rationale := "Fallback to General IT > Questions" }] :=
  ⟨by decide,
   C1_fallback_amended zeroPr modelGIT 4 3 3 [] (5/100) (35/100)
     (combinedText ticketMisc) [] (by decide) (by decide)⟩

/-! ### Claim C2 -/

lemma foldl_matchStep_lookup_notin (textLower : String) (tokenSet : List String)
    (ns : List TaxonomyNode) (acc : MatchMap) (p : List String)
    (hnotin : ∀ n ∈ ns, n.path ≠ p) :
    alistLookup (ns.foldl (matchTaxonomyStep textLower tokenSet) acc) p =
      alistLookup acc p := by
  induction ns generalizing acc with
  | nil => rfl
  | cons n rest ih =>
    rw [List.foldl_cons, ih _ (fun n2 h2 => hnotin n2 (List.mem_cons_of_mem _ h2))]
    unfold matchTaxonomyStep
    split
    · rfl
    · rw [alistLookup_insert, if_neg (hnotin n (List.mem_cons_self _ _))]

lemma matchTaxonomy_lookup (model : TaxonomyModel) (text : String) (tokenSet : List String)
    (node : TaxonomyNode) (hnodup : (model.iter_nodes.map TaxonomyNode.path).Nodup)
    (hmem : node ∈ model.iter_nodes) :
    alistLookup (matchTaxonomy model text tokenSet) node.path =
      if (matchedKeywords node (pyLower text) tokenSet).isEmpty then none
      else some
        { path := node.path
          confidence := confidence (matchedKeywords node (pyLower text) tokenSet).length
            node.path.length
          rationale := buildRationale node.path (matchedKeywords node (pyLower text) tokenSet)
            [] none false none
          matched_keywords := matchedKeywords node (pyLower text) tokenSet
          matched_regexes := []
          tfidf_score := 0 } := by
  unfold matchTaxonomy
  suffices h : ∀ (ns : List TaxonomyNode) (acc : MatchMap),
      (ns.map TaxonomyNode.path).Nodup → node ∈ ns → alistLookup acc node.path = none →
      alistLookup (ns.foldl (matchTaxonomyStep (pyLower text) tokenSet) acc) node.path =
        (if (matchedKeywords node (pyLower text) tokenSet).isEmpty then none
         else some
           { path := node.path
             confidence := confidence (matchedKeywords node (pyLower text) tokenSet).length
               node.path.length
             rationale := buildRationale node.path
               (matchedKeywords node (pyLower text) tokenSet) [] none false none
             matched_keywords := matchedKeywords node (pyLower text) tokenSet
             matched_regexes := []
             tfidf_score := 0 }) by
    exact h _ [] hnodup hmem rfl
  intro ns
  induction ns with
  | nil =>
    intro acc _ hmem2 _
    simp at hmem2
  | cons n rest ih =>
    intro acc hnd hmem2 hacc
    simp only [List.map_cons, List.nodup_cons] at hnd
    rw [List.foldl_cons]
    rcases List.mem_cons.mp hmem2 with rfl | hmem3
    · have hrest : ∀ n2 ∈ rest, n2.path ≠ node.path := by
        intro n2 h2 hpe
        exact hnd.1 (hpe ▸ List.mem_map_of_mem _ h2)
      rw [foldl_matchStep_lookup_notin _ _ _ _ _ hrest]
      unfold matchTaxonomyStep
      split
      · exact hacc
      · rw [alistLookup_insert, if_pos rfl]
    · have hne : n.path ≠ node.path := by
        intro hpe
        exact hnd.1 (hpe ▸ List.mem_map_of_mem _ hmem3)
      have hacc2 : alistLookup (matchTaxonomyStep (pyLower text) tokenSet acc n)
          node.path = none := by
        unfold matchTaxonomyStep
        split
        · exact hacc
        · rw [alistLookup_insert, if_neg hne]
          exact hacc
      exact ih _ hnd.2 hmem3 hacc2

lemma matchedKeywords_isEmpty_iff (node : TaxonomyNode) (tl : String)
    (ts : List String) :
    (matchedKeywords node tl ts).isEmpty = true ↔
    ((node.keywords.zip node.keyword_norms).any
      (fun kv => matchesTerm kv.1 kv.2 tl ts)) = false := by
  unfold matchedKeywords
  constructor
  · intro h
    rw [List.any_eq_false]
    intro kv hkv
    rw [List.isEmpty_iff, List.map_eq_nil_iff, List.filter_eq_nil_iff] at h
    simpa using h kv hkv
  · intro h
    rw [List.any_eq_false] at h
    rw [List.isEmpty_iff, List.map_eq_nil_iff, List.filter_eq_nil_iff]
    intro kv hkv
    simpa using h kv hkv

/-- C2 (counterexample): a node whose compiled regex matches the raw text
but none of whose keywords match produces no candidate in _match_taxonomy,
refuting the claimed if-and-only-if: the matcher never consults the node
regexes. -/
theorem C2_matcher_counterexample :
    ¬((alistLookup (matchTaxonomy modelRegexOnly "hello" (rawTokens "hello"))
        regexOnlyNode.path).isSome = true
      ↔ (((regexOnlyNode.keywords.zip regexOnlyNode.keyword_norms).any
          (fun kv => matchesTerm kv.1 kv.2 (pyLower "hello") (rawTokens "hello"))) = true
        ∨ (regexOnlyNode.regexes.any (fun rg => rg.search "hello")) = true)) := by
  decide

/-- C2 (amended): for every ticket text and every taxonomy node (with the
taxonomy's node paths distinct), the keyword matcher produces a candidate
for that node if and only if at least one of the node's keywords matches the
lowercase text/token set; the node's regexes are not consulted. -/
theorem C2_matcher_amended (model : TaxonomyModel) (text : String)
    (tokenSet : List String) (node : TaxonomyNode)
    (hnodup : (model.iter_nodes.map TaxonomyNode.path).Nodup)
    (hmem : node ∈ model.iter_nodes) :
    (alistLookup (matchTaxonomy model text tokenSet) node.path).isSome = true
    ↔ ((node.keywords.zip node.keyword_norms).any
        (fun kv => matchesTerm kv.1 kv.2 (pyLower text) tokenSet)) = true := by
  rw [matchTaxonomy_lookup model text tokenSet node hnodup hmem]
  by_cases hkw : (matchedKeywords node (pyLower text) tokenSet).isEmpty = true
  · rw [if_pos hkw]
    have hfalse := (matchedKeywords_isEmpty_iff node (pyLower text) tokenSet).mp hkw
    simp [hfalse]
  · rw [if_neg hkw]
    have htrue : ((node.keywords.zip node.keyword_norms).any
        (fun kv => matchesTerm kv.1 kv.2 (pyLower text) tokenSet)) = true := by
      rcases Bool.eq_false_or_eq_true ((node.keywords.zip node.keyword_norms).any
        (fun kv => matchesTerm kv.1 kv.2 (pyLower text) tokenSet)) with ht | hf
      · exact ht
      · exact absurd ((matchedKeywords_isEmpty_iff node (pyLower text) tokenSet).mpr hf) hkw
    simp [htrue]

/-- A node with a keyword that matches the text, for the C2 witness. -/
def kwNode : TaxonomyNode := .mk "Kw" ["Kw"] ["hello"] ["hello"] [] [] []

def modelKw : TaxonomyModel :=
  { nodes_by_path := [(["Kw"], kwNode)]
    priority_map := []
    alias_rules := []
    max_depth := 3 }

/-- Closed instance of C2_matcher_amended at concrete inputs, discharging
each hypothesis by evaluation. -/
theorem C2_matcher_amended_witness :
    (alistLookup (matchTaxonomy modelKw "hello" (rawTokens "hello")) kwNode.path).isSome = true
    ↔ ((kwNode.keywords.zip kwNode.keyword_norms).any
        (fun kv => matchesTerm kv.1 kv.2 (pyLower "hello") (rawTokens "hello"))) = true :=
  C2_matcher_amended modelKw "hello" (rawTokens "hello") kwNode (by decide)
    (show kwNode ∈ [kwNode] from List.mem_cons_self _ _)

/-! ### Claim C3 -/

lemma applyProximityRule_eq_of_groups (model : TaxonomyModel) (tokens : List String)
    (m : MatchMap) (rule : ProximityRule) (anchors : List ℕ) (others : List (List ℕ))
    (hg : ¬(rule.term_groups.length < 2))
    (hn : ¬((model.get_node rule.path).isNone = true))
    (hgroups : proximityPositionGroups tokens rule = anchors :: others)
    (hne : ¬(((anchors :: others).any (fun g => g.isEmpty)) = true)) :
    applyProximityRule model tokens m rule =
      if !(proximityFired rule.window anchors others) then m
      else
        match alistLookup m rule.path with
        | some _ =>
          alistModify m rule.path (fun r =>
            { r with confidence := round2 (min (r.confidence + rule.boost) (19/20))
                     rationale := r.rationale ++ "; " ++ rule.description })
        | none =>
          alistInsert m rule.path
            { path := rule.path
              confidence := round2 (max (confidence 1 rule.path.length - 1/10) (1/2))
              rationale := "Matched " ++ joinPath rule.path ++ " via " ++ rule.description
              matched_keywords := []
              matched_regexes := []
              tfidf_score := 0 } := by
  unfold applyProximityRule
  rw [if_neg hg, if_neg hn, hgroups, if_neg hne]

/-- C3 (counterexample): on a taxonomy in which Remote Access > VPN (CATO) has
a child, the vpn proximity rule fired on an empty candidate map still creates
a new candidate at that non-leaf path, refuting the claimed leaf-only
condition for new-candidate creation. -/
theorem C3_proximity_counterexample :
    (alistLookup (applyProximityBoosts modelVpnParent [] ["vpn", "cannot"])
        ["Remote Access", "VPN (CATO)"]).isSome = true
    ∧ ((modelVpnParent.get_node ["Remote Access", "VPN (CATO)"]).map
        (fun n => n.children.isEmpty)) = some false := by
  decide

/-- C3 (amended): for a proximity rule with at least two term groups whose
target path resolves to a node and whose position groups are all non-empty,
when the rule fires: an existing candidate is boosted by the rule's boost
capped at 0.95 with the description appended to the rationale; and when no
candidate exists, a new candidate is created whenever the target node merely
exists — no leaf condition — with confidence max(0.5, depth base − 0.1). -/
theorem C3_proximity_amended (model : TaxonomyModel) (tokens : List String)
    (m : MatchMap) (rule : ProximityRule) (node : TaxonomyNode)
    (anchors : List ℕ) (others : List (List ℕ))
    (hg : 2 ≤ rule.term_groups.length)
    (hn : model.get_node rule.path = some node)
    (hgroups : proximityPositionGroups tokens rule = anchors :: others)
    (hne : ((anchors :: others).any (fun g => g.isEmpty)) = false)
    (hfired : proximityFired rule.window anchors others = true) :
    ((alistLookup m rule.path).isSome = true →
      applyProximityRule model tokens m rule =
        alistModify m rule.path (fun r =>
          { r with confidence := round2 (min (r.confidence + rule.boost) (19/20))
                   rationale := r.rationale ++ "; " ++ rule.description }))
    ∧ (alistLookup m rule.path = none →
      applyProximityRule model tokens m rule =
        alistInsert m rule.path
          { path := rule.path
            confidence := round2 (max (confidence 1 rule.path.length - 1/10) (1/2))
            rationale := "Matched " ++ joinPath rule.path ++ " via " ++ rule.description
            matched_keywords := []
            matched_regexes := []
            tfidf_score := 0 }) := by
  have heq := applyProximityRule_eq_of_groups model tokens m rule anchors others
    (by omega) (by simp [hn]) hgroups (by simp [hne])
  rw [hfired] at heq
  simp only [Bool.not_true, Bool.false_eq_true, if_false] at heq
  constructor
  · intro hsome
    rcases Option.isSome_iff_exists.mp hsome with ⟨r0, h0⟩
    rw [heq, h0]
  · intro hnone
    rw [heq, hnone]

/-- The vpn connectivity proximity rule (third element of proximityRules),
restated for the C3 witness. -/
def vpnRule : ProximityRule :=
  { path := ["Remote Access", "VPN (CATO)"]
    term_groups := [phrases ["vpn", "cato"], phrases ["connect", "cannot", "failed"]]
    description := "vpn connectivity proximity" }

/-- A pre-existing candidate at the vpn path, seed for the C3 witness. -/
def vpnSeedR : MatchResult :=
  { path := ["Remote Access", "VPN (CATO)"]
    confidence := 1/2
    rationale := "seed"
    matched_keywords := []
    matched_regexes := []
    tfidf_score := 0 }

/-- Closed instance of C3_proximity_amended at concrete inputs: both the
boost branch and the creation-at-a-parent branch, with every hypothesis
discharged by evaluation. -/
theorem C3_proximity_amended_witness :
    (applyProximityRule modelVpnParent ["vpn", "cannot"]
        [(["Remote Access", "VPN (CATO)"], vpnSeedR)] vpnRule =
      alistModify [(["Remote Access", "VPN (CATO)"], vpnSeedR)] vpnRule.path (fun r =>
        { r with confidence := round2 (min (r.confidence + vpnRule.boost) (19/20))
                 rationale := r.rationale ++ "; " ++ vpnRule.description }))
    ∧ (applyProximityRule modelVpnParent ["vpn", "cannot"] [] vpnRule =
      alistInsert [] vpnRule.path
        { path := vpnRule.path
          confidence := round2 (max (confidence 1 vpnRule.path.length - 1/10) (1/2))
          rationale := "Matched " ++ joinPath vpnRule.path ++ " via " ++ vpnRule.description
          matched_keywords := []
          matched_regexes := []
          tfidf_score := 0 }) :=
  ⟨(C3_proximity_amended modelVpnParent ["vpn", "cannot"]
      [(["Remote Access", "VPN (CATO)"], vpnSeedR)] vpnRule vpnParentNode [0] [[1]]
      (by decide) rfl (by decide) (by decide) (by decide)).1 (by decide),
   (C3_proximity_amended modelVpnParent ["vpn", "cannot"] [] vpnRule vpnParentNode [0] [[1]]
      (by decide) rfl (by decide) (by decide) (by decide)).2 rfl⟩

/-! ### Claim C4 -/

lemma applyTfidfItem_eq_of_node (model : TaxonomyModel) (thr w : ℚ) (m : MatchMap)
    (path : List String) (score : ℚ) (node : TaxonomyNode)
    (hpos : ¬(score ≤ 0)) (hn : model.get_node path = some node) :
    applyTfidfItem model thr w m (path, score) =
      match alistLookup m path with
      | some _ =>
        alistModify m path (fun r =>
          { r with tfidf_score := max r.tfidf_score score
                   confidence := round2 (min (r.confidence + score * w) (19/20))
                   rationale :=
                     if strContains r.rationale "tf-idf" then
                       r.rationale ++ " (" ++ formatF2 score ++ ")"
                     else r.rationale ++ "; tf-idf " ++ formatF2 score })
      | none =>
        if !node.children.isEmpty then m
        else if score < thr then m
        else
          alistInsert m path
            { path := path
              confidence := round2 (min (1/2 + score * w) (9/10))
              rationale := "Matched " ++ joinPath path ++ " via tf-idf similarity " ++
                formatF2 score
              matched_keywords := []
              matched_regexes := []
              tfidf_score := score } := by
  unfold applyTfidfItem
  rw [if_neg hpos, hn]

/-- C4 (counterexample): with similarity exactly equal to the leaf threshold
(not strictly above it), _apply_tfidf_scores still creates a new candidate at
a true leaf, refuting the claimed strict-exceedance condition: the code skips
only when similarity is strictly below the threshold. -/
theorem C4_tfidf_counterexample :
    (alistLookup (applyTfidfScores modelSoftLeaf (1/20) (35/100) []
        [(["Soft", "Leaf"], 1/20)]) ["Soft", "Leaf"]).isSome = true
    ∧ ¬((1 : ℚ)/20 > 1/20) := by
  decide

/-- C4 (amended): for a (path, similarity) pair with positive similarity whose
path resolves to a node: an existing candidate is boosted by similarity times
weight capped at 0.95 and records the max tf-idf score; with no existing
candidate, the pair is skipped when the node has children, skipped when the
similarity is strictly below the leaf threshold, and otherwise — including at
exact equality with the threshold — a new candidate is created with
confidence min(0.9, 0.5 + similarity times weight). -/
theorem C4_tfidf_amended (model : TaxonomyModel) (thr w : ℚ) (m : MatchMap)
    (path : List String) (score : ℚ) (node : TaxonomyNode)
    (hpos : 0 < score) (hn : model.get_node path = some node) :
    ((alistLookup m path).isSome = true →
      applyTfidfItem model thr w m (path, score) =
        alistModify m path (fun r =>
          { r with tfidf_score := max r.tfidf_score score
                   confidence := round2 (min (r.confidence + score * w) (19/20))
                   rationale :=
                     if strContains r.rationale "tf-idf" then
                       r.rationale ++ " (" ++ formatF2 score ++ ")"
                     else r.rationale ++ "; tf-idf " ++ formatF2 score }))
    ∧ (alistLookup m path = none → node.children.isEmpty = false →
      applyTfidfItem model thr w m (path, score) = m)
    ∧ (alistLookup m path = none → node.children.isEmpty = true → score < thr →
      applyTfidfItem model thr w m (path, score) = m)
    ∧ (alistLookup m path = none → node.children.isEmpty = true → thr ≤ score →
      applyTfidfItem model thr w m (path, score) =
        alistInsert m path
          { path := path
            confidence := round2 (min (1/2 + score * w) (9/10))
            rationale := "Matched " ++ joinPath path ++ " via tf-idf similarity " ++
              formatF2 score
            matched_keywords := []
            matched_regexes := []
            tfidf_score := score }) := by
  have heq := applyTfidfItem_eq_of_node model thr w m path score node (not_le.mpr hpos) hn
  refine ⟨?_, ?_, ?_, ?_⟩
  · intro hsome
    rcases Option.isSome_iff_exists.mp hsome with ⟨r0, h0⟩
    rw [heq, h0]
  · intro hnone hch
    rw [heq, hnone]
    simp [hch]
  · intro hnone hch hlt
    rw [heq, hnone]
    simp [hch, hlt]
  · intro hnone hch hge
    rw [heq, hnone]
    simp [hch, not_lt.mpr hge]

/-- Closed instance of C4_tfidf_amended at concrete inputs: similarity 0.1
against leaf threshold 0.05 on an empty candidate map creates the tf-idf
candidate; every hypothesis is discharged by evaluation. -/
theorem C4_tfidf_amended_witness :
    applyTfidfItem modelSoftLeaf (1/20) (35/100) [] (["Soft", "Leaf"], 1/10) =
      alistInsert [] ["Soft", "Leaf"]
        { path := ["Soft", "Leaf"]
          confidence := round2 (min (1/2 + (1/10) * (35/100)) (9/10))
          rationale := "Matched " ++ joinPath ["Soft", "Leaf"] ++
            " via tf-idf similarity " ++ formatF2 (1/10)
          matched_keywords := []
          matched_regexes := []
          tfidf_score := 1/10 } :=
  (C4_tfidf_amended modelSoftLeaf (1/20) (35/100) [] ["Soft", "Leaf"] (1/10) softLeafNode
    (by decide) rfl).2.2.2 rfl (by decide) (by decide)

/-! ### Claim C5 -/

lemma applyCitrixGuard_keys (model : TaxonomyModel) (tokens : List String) (m : MatchMap) :
    (applyCitrixGuard model tokens m).map Prod.fst = m.map Prod.fst := by
  unfold applyCitrixGuard
  split
  · exact alistModify_keys _ _ _
  · rfl

lemma applyNotVpnGuard_keys (model : TaxonomyModel) (textLower : String) (m : MatchMap) :
    (applyNotVpnGuard model textLower m).map Prod.fst = m.map Prod.fst := by
  unfold applyNotVpnGuard
  split
  · rw [List.map_map]
    apply List.map_congr_left
    intro e _
    by_cases h : pathMentions e.2.path "vpn" = true
    · simp [h]
    · simp [h]
  · rfl

lemma applyTeamsGuard_keys (model : TaxonomyModel) (textLower : String) (m : MatchMap) :
    (applyTeamsGuard model textLower m).map Prod.fst = m.map Prod.fst := by
  unfold applyTeamsGuard
  split
  · rw [List.map_map]
    apply List.map_congr_left
    intro e _
    by_cases h : pathMentions e.2.path "teams" = true
    · simp [h]
    · simp [h]
  · rfl

lemma applyNegativeKeywords_keys (model : TaxonomyModel) (m : MatchMap)
    (tokens : List String) (textLower : String) :
    (applyNegativeKeywords model m tokens textLower).map Prod.fst = m.map Prod.fst := by
  unfold applyNegativeKeywords
  split
  · rfl
  · rw [applyTeamsGuard_keys, applyNotVpnGuard_keys, applyCitrixGuard_keys]

/-- C5 (confirmed): when the lowercase combined text contains "not vpn",
every candidate whose path mentions vpn is demoted in place — confidence
reduced by 0.45 floored at 0.05, priority override set to base rank plus the
priority-table size plus 5, guard suffix appended to the rationale — and the
negative-keyword pass preserves the candidate key set, so no candidate is
deleted. -/
theorem C5_not_vpn_demotion (model : TaxonomyModel) (m : MatchMap)
    (tokens : List String) (textLower : String)
    (hc : strContains textLower "not vpn" = true) :
    (∀ p r, (p, r) ∈ m → pathMentions r.path "vpn" = true →
      (p, { r with
              confidence := round2 (max (r.confidence - 45/100) (1/20))
              priority_override :=
                some (basePriority model r.path + model.priority_map.length + 5)
              rationale := r.rationale ++ "; reduced by \x27not vpn\x27 guard" })
        ∈ applyNotVpnGuard model textLower m)
    ∧ (applyNotVpnGuard model textLower m).map Prod.fst = m.map Prod.fst
    ∧ (applyNegativeKeywords model m tokens textLower).map Prod.fst = m.map Prod.fst := by
  refine ⟨?_, applyNotVpnGuard_keys model textLower m,
    applyNegativeKeywords_keys model m tokens textLower⟩
  intro p r hm hv
  unfold applyNotVpnGuard
  rw [if_pos hc]
  refine List.mem_map.mpr ⟨(p, r), hm, ?_⟩
  dsimp only
  rw [if_pos hv]

/-- Closed instance of C5_not_vpn_demotion at concrete inputs: the seeded vpn
candidate is demoted in place and the key set of the candidate map is
unchanged; the containment hypothesis is discharged by evaluation. -/
theorem C5_not_vpn_demotion_witness :
    (["Remote Access", "VPN (CATO)"],
      { vpnSeedR with
          confidence := round2 (max (vpnSeedR.confidence - 45/100) (1/20))
          priority_override :=
            some (basePriority modelVpnParent vpnSeedR.path +
              modelVpnParent.priority_map.length + 5)
          rationale := vpnSeedR.rationale ++ "; reduced by \x27not vpn\x27 guard" })
      ∈ applyNotVpnGuard modelVpnParent "its not vpn today"
          [(["Remote Access", "VPN (CATO)"], vpnSeedR)]
    ∧ (applyNegativeKeywords modelVpnParent
        [(["Remote Access", "VPN (CATO)"], vpnSeedR)] [] "its not vpn today").map Prod.fst =
      [(["Remote Access", "VPN (CATO)"], vpnSeedR)].map Prod.fst :=
  ⟨(C5_not_vpn_demotion modelVpnParent [(["Remote Access", "VPN (CATO)"], vpnSeedR)] []
      "its not vpn today" (by decide)).1 ["Remote Access", "VPN (CATO)"] vpnSeedR
      (List.mem_cons_self _ _) (by decide),
   (C5_not_vpn_demotion modelVpnParent [(["Remote Access", "VPN (CATO)"], vpnSeedR)] []
      "its not vpn today" (by decide)).2.2⟩

/-! ### Claim C8 -/

/-- The alias rule _parse_alias_rules builds from a configuration entry. -/
def ruleOfAliasEntry (compile : String → PyRegex) (e : AliasEntry) : AliasRule :=
  { aliasName := pyStrip (e.aliasValue.getD "")
    target_path := normalisePriorityPath (e.target.getD (.parts []))
    legacy := e.legacy
    note := e.note
    regex := if e.regex then some (compile (pyStrip (e.aliasValue.getD ""))) else none }

lemma parseAliasRules_ok_of_wf (compile : String → PyRegex)
    (nodes : List (List String × TaxonomyNode)) (entries : List AliasEntry) :
    ∀ rules : List AliasRule,
    (∀ e ∈ entries, pyStrip (e.aliasValue.getD "") ≠ "" ∧
      ∃ spec, e.target = some spec ∧ pathSpecTruthy spec = true) →
    parseAliasRules compile nodes entries rules =
      .ok (rules ++ entries.map (ruleOfAliasEntry compile)) := by
  induction entries with
  | nil =>
    intro rules _
    simp [parseAliasRules]
  | cons e rest ih =>
    intro rules hwf
    obtain ⟨ha, spec, htgt, htr⟩ := hwf e (List.mem_cons_self _ _)
    show (if pyStrip (e.aliasValue.getD "") = "" then
        Except.error "Alias entries must include a non-empty \x27alias\x27 field"
      else
        match e.target with
        | none => .error ("Alias \x27" ++ pyStrip (e.aliasValue.getD "") ++
            "\x27 is missing a target path")
        | some spec2 =>
          if !pathSpecTruthy spec2 then
            .error ("Alias \x27" ++ pyStrip (e.aliasValue.getD "") ++
              "\x27 is missing a target path")
          else
            parseAliasRules compile nodes rest
              (rules ++ [{ aliasName := pyStrip (e.aliasValue.getD "")
                           target_path := normalisePriorityPath spec2
                           legacy := e.legacy
                           note := e.note
                           regex := if e.regex then
                               some (compile (pyStrip (e.aliasValue.getD "")))
                             else none }])) =
      .ok (rules ++ (e :: rest).map (ruleOfAliasEntry compile))
    rw [if_neg ha, htgt]
    split
    · rename_i heq
      exact absurd heq (by simp)
    · rename_i spec2 heq
      injection heq with heq2
      subst heq2
      rw [htr]
      simp only [Bool.not_true, Bool.false_eq_true, if_false]
      rw [ih _ (fun x hx => hwf x (List.mem_cons_of_mem _ hx))]
      rw [List.map_cons]
      rw [show ruleOfAliasEntry compile e =
        { aliasName := pyStrip (e.aliasValue.getD "")
          target_path := normalisePriorityPath spec
          legacy := e.legacy
          note := e.note
          regex := if e.regex then some (compile (pyStrip (e.aliasValue.getD ""))) else none }
        from by rw [ruleOfAliasEntry, htgt]; rfl]
      simp

lemma buildTaxonomyModel_eq_of_ok (compile : String → PyRegex) (config : TaxonomyConfig)
    (max_depth : ℕ) (ns : List TaxonomyNode) (st : BuildState)
    (htree : config.tree.isEmpty = false)
    (hbuild : buildChildren compile max_depth [] config.tree
      { nodes_by_path := [], alias_rules := [] } = .ok (ns, st)) :
    buildTaxonomyModel compile config max_depth =
      (match (if config.aliases.isEmpty then .ok st.alias_rules
              else parseAliasRules compile st.nodes_by_path config.aliases st.alias_rules) with
       | .error e => .error e
       | .ok rules =>
         .ok { nodes_by_path := st.nodes_by_path
               priority_map := (config.priority_order.foldl
                 (fun (acc : List (List String × ℕ) × ℕ) entry =>
                   if (normalisePriorityPath entry).isEmpty then (acc.1, acc.2 + 1)
                   else (alistInsert acc.1 (normalisePriorityPath entry) acc.2, acc.2 + 1))
                 ([], 0)).1
               alias_rules := rules
               max_depth := max_depth }) := by
  unfold buildTaxonomyModel
  rw [if_neg (by simp [htree]), hbuild]

/-- C8 (confirmed): a well-formed configuration whose aliases list contains an
entry with a non-empty alias and a target path absent from the node tree still
builds successfully, and the resulting model contains that alias rule: the
unknown target is a warning, not a construction failure. -/
theorem C8_unknown_alias_target (compile : String → PyRegex) (config : TaxonomyConfig)
    (max_depth : ℕ) (ns : List TaxonomyNode) (st : BuildState)
    (entry : AliasEntry) (spec : PathSpec)
    (htree : config.tree.isEmpty = false)
    (hbuild : buildChildren compile max_depth [] config.tree
      { nodes_by_path := [], alias_rules := [] } = .ok (ns, st))
    (hwf : ∀ e ∈ config.aliases, pyStrip (e.aliasValue.getD "") ≠ "" ∧
      ∃ s, e.target = some s ∧ pathSpecTruthy s = true)
    (hmem : entry ∈ config.aliases)
    (hentry : entry.target = some spec)
    (_hunknown : (alistLookup st.nodes_by_path (normalisePriorityPath spec)).isNone = true) :
    ∃ model, buildTaxonomyModel compile config max_depth = .ok model ∧
      { aliasName := pyStrip (entry.aliasValue.getD "")
        target_path := normalisePriorityPath spec
        legacy := entry.legacy
        note := entry.note
        regex := if entry.regex then some (compile (pyStrip (entry.aliasValue.getD "")))
          else none : AliasRule } ∈ model.alias_rules := by
  have hne : config.aliases.isEmpty = false := by
    cases hal : config.aliases with
    | nil => rw [hal] at hmem; simp at hmem
    | cons a rest => rfl
  have heq := buildTaxonomyModel_eq_of_ok compile config max_depth ns st htree hbuild
  rw [hne] at heq
  simp only [Bool.false_eq_true, if_false] at heq
  rw [parseAliasRules_ok_of_wf compile st.nodes_by_path config.aliases st.alias_rules hwf]
    at heq
  refine ⟨_, heq, ?_⟩
  apply List.mem_append_right
  refine List.mem_map.mpr ⟨entry, hmem, ?_⟩
  rw [ruleOfAliasEntry, hentry]
  rfl

/-- The node built from the single tree entry of cfgUnknownAliasTarget. -/
def nodeA : TaxonomyNode :=
  .mk "A" ["A"] (deriveLabelKeywords "A" []) ((deriveLabelKeywords "A" []).map pyLower)
    [] [] []

/-- The construction state after building cfgUnknownAliasTarget's tree. -/
def stA : BuildState := { nodes_by_path := [(["A"], nodeA)], alias_rules := [] }

/-- Closed instance of C8_unknown_alias_target at a concrete configuration
whose only alias points at the absent path B, with every hypothesis
discharged by evaluation. -/
theorem C8_unknown_alias_target_witness :
    ∃ model, buildTaxonomyModel noSearch cfgUnknownAliasTarget 3 = .ok model ∧
      ruleOfAliasEntry noSearch
        { aliasValue := some "foo", target := some (.pathStr "B"),
          legacy := false, note := none, regex := false } ∈ model.alias_rules :=
  C8_unknown_alias_target noSearch cfgUnknownAliasTarget 3 [nodeA] stA
    { aliasValue := some "foo", target := some (.pathStr "B"),
      legacy := false, note := none, regex := false } (.pathStr "B")
    rfl rfl
    (by
      intro e he
      have he2 : e = { aliasValue := some "foo", target := some (.pathStr "B"),
                       legacy := false, note := none, regex := false } :=
        List.mem_singleton.mp he
      subst he2
      exact ⟨by decide, ⟨.pathStr "B", rfl, by decide⟩⟩)
    (List.mem_cons_self _ _) rfl (by decide)

/-! ### Claim C9 -/

/-- The fields of a ticket record that suggest_categories reads: id, text
fields and the existing category fields.  The final_* fields written by the
classifier are not part of the core. -/
def ticketCore (t : TicketRecord) :
    ℤ × String × String × Option String × Option String × Option String :=
  (t.id, t.subject, t.description_text, t.category, t.sub_category, t.item_category)

/-- tbpStep expressed on the ticket core (definitionally equal to tbpStep on
the record). -/
def tbpStepC (model : TaxonomyModel) (acc : List (List String × List String))
    (c : ℤ × String × String × Option String × Option String × Option String)
    (tokens : List String) : List (List String × List String) :=
  let step := fun (st : List (List String × List String) × List String)
      (field : Option String) =>
    if optTruthy field then
      let pp := st.2 ++ [field.getD ""]
      (if (model.get_node pp).isSome then tbpExtend st.1 pp tokens else st.1, pp)
    else st
  (step (step (step (acc, []) c.2.2.2.1) c.2.2.2.2.1) c.2.2.2.2.2).1

lemma foldl_zip_map {α β γ δ : Type} (f : α → γ) (g : δ → γ → β → δ) :
    ∀ (ts : List α) (ds : List β) (init : δ),
    (ts.zip ds).foldl (fun acc e => g acc (f e.1) e.2) init =
      ((ts.map f).zip ds).foldl (fun acc e => g acc e.1 e.2) init := by
  intro ts
  induction ts with
  | nil => intro ds init; rfl
  | cons t rest ih =>
    intro ds init
    cases ds with
    | nil => rfl
    | cons d ds2 => simp [ih]

lemma zip_map_zip {α β γ : Type} (g : α × β → γ) :
    ∀ (l : List α) (ms : List β),
    (((l.zip ms).map g).zip ms) = (l.zip ms).map (fun e => (g e, e.2)) := by
  intro l
  induction l with
  | nil => intro ms; rfl
  | cons a rest ih =>
    intro ms
    cases ms with
    | nil => rfl
    | cons m ms2 => simp [ih]

lemma corpusOf_congr (ts2 ts : List TicketRecord)
    (h : ts2.map ticketCore = ts.map ticketCore) : corpusOf ts2 = corpusOf ts := by
  have key : ∀ l : List TicketRecord, corpusOf l =
      (l.map ticketCore).map (fun c => pyLower (pyStrip (c.2.1 ++ " " ++ c.2.2.1))) := by
    intro l
    unfold corpusOf
    rw [List.map_map]
    rfl
  rw [key, key, h]

lemma tokenDocsOf_congr (ts2 ts : List TicketRecord)
    (h : ts2.map ticketCore = ts.map ticketCore) : tokenDocsOf ts2 = tokenDocsOf ts := by
  unfold tokenDocsOf
  rw [corpusOf_congr ts2 ts h]

lemma tokensByPathOf_congr (model : TaxonomyModel) (ts2 ts : List TicketRecord)
    (h : ts2.map ticketCore = ts.map ticketCore) :
    tokensByPathOf model ts2 = tokensByPathOf model ts := by
  have hd := tokenDocsOf_congr ts2 ts h
  unfold tokensByPathOf
  rw [hd]
  rw [show (fun (acc : List (List String × List String)) (e : TicketRecord × List String) =>
      tbpStep model acc e.1 e.2) =
    (fun acc e => tbpStepC model acc (ticketCore e.1) e.2) from rfl]
  rw [foldl_zip_map ticketCore (tbpStepC model) ts2 (tokenDocsOf ts) [],
      foldl_zip_map ticketCore (tbpStepC model) ts (tokenDocsOf ts) [], h]

lemma buildTfidfArtifacts_congr (logQ sqrtQ : ℚ → ℚ) (model : TaxonomyModel)
    (ts2 ts : List TicketRecord) (h : ts2.map ticketCore = ts.map ticketCore) :
    buildTfidfArtifacts logQ sqrtQ model ts2 = buildTfidfArtifacts logQ sqrtQ model ts := by
  have hc := corpusOf_congr ts2 ts h
  have htd := tokenDocsOf_congr ts2 ts h
  have htbp := tokensByPathOf_congr model ts2 ts h
  have hemp : ts2.isEmpty = ts.isEmpty := by
    cases ts2 <;> cases ts <;> simp_all
  unfold buildTfidfArtifacts
  rw [hemp, hc, htd, htbp]

lemma computeTfidfScores_congr (logQ sqrtQ : ℚ → ℚ) (model : TaxonomyModel)
    (ts2 ts : List TicketRecord) (h : ts2.map ticketCore = ts.map ticketCore) :
    computeTfidfScores logQ sqrtQ model ts2 = computeTfidfScores logQ sqrtQ model ts := by
  unfold computeTfidfScores
  rw [buildTfidfArtifacts_congr logQ sqrtQ model ts2 ts h]

lemma buildTfidfArtifacts_tv_length (logQ sqrtQ : ℚ → ℚ) (model : TaxonomyModel)
    (ts : List TicketRecord) (a : TfidfArtifacts)
    (h : buildTfidfArtifacts logQ sqrtQ model ts = some a) :
    a.ticket_vectors.length = ts.length := by
  unfold buildTfidfArtifacts at h
  repeat' split at h
  all_goals try exact (Option.noConfusion h)
  injection h with h2
  subst h2
  simp [tokenDocsOf, corpusOf]

lemma computeTfidfScores_length (logQ sqrtQ : ℚ → ℚ) (model : TaxonomyModel)
    (ts : List TicketRecord) (ms : List (List (List String × ℚ)))
    (h : computeTfidfScores logQ sqrtQ model ts = some ms) : ms.length = ts.length := by
  unfold computeTfidfScores at h
  cases hA : buildTfidfArtifacts logQ sqrtQ model ts with
  | none =>
    rw [hA] at h
    exact (Option.noConfusion h)
  | some a =>
    rw [hA] at h
    injection h with h2
    rw [← h2, List.length_map]
    exact buildTfidfArtifacts_tv_length logQ sqrtQ model ts a hA

lemma ticketScorePairs_fst (logQ sqrtQ : ℚ → ℚ) (an : TicketAnalyzer)
    (ts : List TicketRecord) :
    (ticketScorePairs logQ sqrtQ an ts).map Prod.fst = ts := by
  unfold ticketScorePairs
  cases hC : computeTfidfScores logQ sqrtQ an.taxonomy ts with
  | none =>
    show (ts.map (fun t => (t, ([] : List (List String × ℚ))))).map Prod.fst = ts
    rw [List.map_map]
    exact List.map_id ts
  | some ms =>
    show (ts.zip ms).map Prod.fst = ts
    exact List.map_fst_zip ts ms
      (le_of_eq (computeTfidfScores_length logQ sqrtQ an.taxonomy ts ms hC).symm)

lemma suggestOne_eq_of_text (pr : String → String → ℚ) (an : TicketAnalyzer)
    (mp : List (List String × ℚ)) (t base : TicketRecord)
    (h1 : t.subject = base.subject) (h2 : t.description_text = base.description_text) :
    suggestOne pr an t mp =
      (match primaryOf an.taxonomy (candidateMap pr an (combinedText base) mp),
             suggestionListFor pr an (combinedText base) mp with
       | some _, top :: rest =>
         (top :: rest, { t with final_category := top.category.getD ""
                                final_sub_category := top.sub_category.getD ""
                                final_item_category := top.item_category.getD "" })
       | _, sl => (sl, t)) := by
  unfold suggestOne
  rw [show combinedText t = combinedText base from by unfold combinedText; rw [h1, h2]]

lemma ticketCore_suggestOne_snd (pr : String → String → ℚ) (an : TicketAnalyzer)
    (t : TicketRecord) (mp : List (List String × ℚ)) :
    ticketCore (suggestOne pr an t mp).2 = ticketCore t := by
  rw [suggestOne_eq_of_text pr an mp t t rfl rfl]
  cases hP : primaryOf an.taxonomy (candidateMap pr an (combinedText t) mp) <;>
    cases hS : suggestionListFor pr an (combinedText t) mp <;> rfl

lemma suggestOne_snd_id (pr : String → String → ℚ) (an : TicketAnalyzer)
    (t : TicketRecord) (mp : List (List String × ℚ)) :
    (suggestOne pr an t mp).2.id = t.id := by
  rw [suggestOne_eq_of_text pr an mp t t rfl rfl]
  cases hP : primaryOf an.taxonomy (candidateMap pr an (combinedText t) mp) <;>
    cases hS : suggestionListFor pr an (combinedText t) mp <;> rfl

lemma suggestOne_idem (pr : String → String → ℚ) (an : TicketAnalyzer)
    (t : TicketRecord) (mp : List (List String × ℚ)) :
    suggestOne pr an (suggestOne pr an t mp).2 mp = suggestOne pr an t mp := by
  have hsub : (suggestOne pr an t mp).2.subject = t.subject := by
    rw [suggestOne_eq_of_text pr an mp t t rfl rfl]
    cases hP : primaryOf an.taxonomy (candidateMap pr an (combinedText t) mp) <;>
      cases hS : suggestionListFor pr an (combinedText t) mp <;> rfl
  have hdesc : (suggestOne pr an t mp).2.description_text = t.description_text := by
    rw [suggestOne_eq_of_text pr an mp t t rfl rfl]
    cases hP : primaryOf an.taxonomy (candidateMap pr an (combinedText t) mp) <;>
      cases hS : suggestionListFor pr an (combinedText t) mp <;> rfl
  rw [suggestOne_eq_of_text pr an mp (suggestOne pr an t mp).2 t hsub hdesc,
      suggestOne_eq_of_text pr an mp t t rfl rfl]
  cases hP : primaryOf an.taxonomy (candidateMap pr an (combinedText t) mp) <;>
    cases hS : suggestionListFor pr an (combinedText t) mp <;> rfl

/-- C9 (confirmed): running suggest_categories a second time on the records
returned by the first run (whose final_category / final_sub_category /
final_item_category fields were written by that run) returns exactly the
first run's output: identical suggestion lists, confidences and rationales
for every ticket, and identical records.  The classifier never reads the
final_* fields it writes. -/
theorem C9_idempotent (pr : String → String → ℚ) (logQ sqrtQ : ℚ → ℚ)
    (an : TicketAnalyzer) (tickets : List TicketRecord) :
    suggestCategories pr logQ sqrtQ an (suggestCategories pr logQ sqrtQ an tickets).2 =
      suggestCategories pr logQ sqrtQ an tickets := by
  have hrecs : (suggestCategories pr logQ sqrtQ an tickets).2 =
      (ticketScorePairs logQ sqrtQ an tickets).map (fun e => (suggestOne pr an e.1 e.2).2) := by
    show (((ticketScorePairs logQ sqrtQ an tickets).map
        (fun e => (e.1.id, suggestOne pr an e.1 e.2))).map (fun e => e.2.2)) =
      (ticketScorePairs logQ sqrtQ an tickets).map (fun e => (suggestOne pr an e.1 e.2).2)
    rw [List.map_map]
    rfl
  rw [hrecs]
  set recs := (ticketScorePairs logQ sqrtQ an tickets).map
    (fun e => (suggestOne pr an e.1 e.2).2) with hrd
  have hcore : recs.map ticketCore = tickets.map ticketCore := by
    rw [hrd, List.map_map,
      List.map_congr_left (fun e _ => ticketCore_suggestOne_snd pr an e.1 e.2)]
    rw [show (fun (e : TicketRecord × List (List String × ℚ)) => ticketCore e.1) =
        (ticketCore ∘ Prod.fst) from rfl]
    rw [← List.map_map, ticketScorePairs_fst]
  have hcompute : computeTfidfScores logQ sqrtQ an.taxonomy recs =
      computeTfidfScores logQ sqrtQ an.taxonomy tickets :=
    computeTfidfScores_congr logQ sqrtQ an.taxonomy recs tickets hcore
  have hL : (ticketScorePairs logQ sqrtQ an recs).map
      (fun e => (e.1.id, suggestOne pr an e.1 e.2)) =
    (ticketScorePairs logQ sqrtQ an tickets).map
      (fun e => (e.1.id, suggestOne pr an e.1 e.2)) := by
    cases hC : computeTfidfScores logQ sqrtQ an.taxonomy tickets with
    | none =>
      have hP1 : ticketScorePairs logQ sqrtQ an tickets =
          tickets.map (fun t => (t, ([] : List (List String × ℚ)))) := by
        unfold ticketScorePairs
        rw [hC]
      have hP2 : ticketScorePairs logQ sqrtQ an recs =
          recs.map (fun t => (t, ([] : List (List String × ℚ)))) := by
        unfold ticketScorePairs
        rw [hcompute, hC]
      rw [hP2, hrd, hP1]
      simp only [List.map_map]
      apply List.map_congr_left
      intro t0 _
      show ((suggestOne pr an t0 []).2.id,
          suggestOne pr an (suggestOne pr an t0 []).2 []) = (t0.id, suggestOne pr an t0 [])
      rw [suggestOne_snd_id, suggestOne_idem]
    | some ms =>
      have hP1 : ticketScorePairs logQ sqrtQ an tickets = tickets.zip ms := by
        unfold ticketScorePairs
        rw [hC]
      have hP2 : ticketScorePairs logQ sqrtQ an recs = recs.zip ms := by
        unfold ticketScorePairs
        rw [hcompute, hC]
      rw [hP2, hrd, hP1, zip_map_zip]
      simp only [List.map_map]
      apply List.map_congr_left
      intro e _
      show ((suggestOne pr an e.1 e.2).2.id,
          suggestOne pr an (suggestOne pr an e.1 e.2).2 e.2) = (e.1.id, suggestOne pr an e.1 e.2)
      rw [suggestOne_snd_id, suggestOne_idem]
  show suggestCategories pr logQ sqrtQ an recs = suggestCategories pr logQ sqrtQ an tickets
  unfold suggestCategories
  rw [hL]

/-! ### Claim C10 -/

/-- C10 (confirmed): the output of suggest_categories does not depend on the
model's alias_rules list — two models agreeing on nodes, priority map and
max depth but with arbitrary alias rules produce identical suggestion maps
and records.  The proof is definitional: the scoring pipeline never invokes
the alias evaluation routine, so the alias rules are never consulted. -/
theorem C10_alias_rules_independent (pr : String → String → ℚ) (logQ sqrtQ : ℚ → ℚ)
    (m1 m2 : TaxonomyModel)
    (kml mkf msug : ℕ) (sw : List String) (thr w : ℚ) (tickets : List TicketRecord)
    (hn : m1.nodes_by_path = m2.nodes_by_path)
    (hp : m1.priority_map = m2.priority_map)
    (hd : m1.max_depth = m2.max_depth) :
    suggestCategories pr logQ sqrtQ (mkAnalyzer m1 kml mkf msug sw thr w) tickets =
      suggestCategories pr logQ sqrtQ (mkAnalyzer m2 kml mkf msug sw thr w) tickets := by
  cases m1 with
  | mk n1 p1 a1 d1 =>
    cases m2 with
    | mk n2 p2 a2 d2 =>
      dsimp only at hn hp hd
      subst hn
      subst hp
      subst hd
      rfl

/-- A copy of modelGIT carrying a nontrivial alias rule, for the C10
witness. -/
def modelGITAliased : TaxonomyModel :=
  { nodes_by_path := modelGIT.nodes_by_path
    priority_map := modelGIT.priority_map
    alias_rules := [{ aliasName := "helpdesk", target_path := ["General IT"] }]
    max_depth := modelGIT.max_depth }

/-- Closed instance of C10_alias_rules_independent at concrete inputs: the
taxonomy with and without an alias rule classifies the batch identically;
the field-equality hypotheses are discharged by rfl. -/
theorem C10_alias_rules_independent_witness :
    suggestCategories zeroPr zeroFn zeroFn
        (mkAnalyzer modelGIT 4 3 3 [] (5/100) (35/100)) [ticketMisc] =
      suggestCategories zeroPr zeroFn zeroFn
        (mkAnalyzer modelGITAliased 4 3 3 [] (5/100) (35/100)) [ticketMisc] :=
  C10_alias_rules_independent zeroPr zeroFn zeroFn modelGIT modelGITAliased
    4 3 3 [] (5/100) (35/100) [ticketMisc] rfl rfl rfl

end Freshservice
